import Mathlib

/-!
Verification development for the agent-router library: a provider-agnostic
LLM client that normalizes requests, responses, streams and errors across
three provider adapters (OpenAI, Anthropic, Google).

The Go sources are embedded shallowly: Go `map[string]any` / `any` JSON
values become the `Json` inductive below (association lists with unique keys,
matching Go map semantics for lookup and update); pure Go functions become
Lean functions; the streaming readers become explicit step functions on a
reader-state type, consuming a list of already-decoded wire events (the
SSE/JSON framing and `encoding/json` decode layer is elided, event payloads
are preserved field by field).  Go `int` is embedded as `Int`.
-/

namespace AgentRouter

/-! ## JSON values (Go `any` / `map[string]any`) -/

mutual

inductive Json where
  | null : Json
  | b (x : Bool) : Json
  | num (n : Int) : Json
  | str (s : String) : Json
  | arr (xs : JsonList) : Json
  | obj (m : JsonMap) : Json
  deriving DecidableEq

inductive JsonList where
  | nil : JsonList
  | cons (hd : Json) (tl : JsonList) : JsonList
  deriving DecidableEq

inductive JsonMap where
  | nil : JsonMap
  | cons (k : String) (v : Json) (tl : JsonMap) : JsonMap
  deriving DecidableEq

end

/-- Go map read `m[k]`: value of the first entry with key `k`. -/
def lookupKey : JsonMap → String → Option Json
  | .nil, _ => none
  | .cons k v tl, k' => if k' = k then some v else lookupKey tl k'

/-- Go map write `m[k] = v`: replace the entry in place, else append. -/
def setKey : JsonMap → String → Json → JsonMap
  | .nil, k, v => .cons k v .nil
  | .cons k' v' tl, k, v => if k = k' then .cons k' v tl else .cons k' v' (setKey tl k v)

/-! ## Schema translator: the recursive `additionalProperties: false` pass
(`Translator.addAdditionalPropertiesFalse` in pkg/schema/translator.go).
The Go function mutates a `map[string]any` in place; here it is rendered
functionally.  `apfEntry` dispatches on one map entry exactly as the Go code
dispatches on the keys `"properties"`, `"items"`, `"anyOf"`, `"oneOf"`,
`"allOf"`, `"$defs"` (Go reads each key once; maps have unique keys, so
per-entry dispatch is the same walk). -/

/-- `schemaType, _ := schema["type"].(string); schemaType == "object"`. -/
def typeIsObject (m : JsonMap) : Prop := lookupKey m "type" = some (.str "object")

instance (m : JsonMap) : Decidable (typeIsObject m) := by
  unfold typeIsObject; infer_instance

mutual

/-- Walk every entry of a schema map (the recursion part of
`addAdditionalPropertiesFalse`, without the marking of the map itself). -/
def apfMap : JsonMap → JsonMap
  | .nil => .nil
  | .cons k v tl => .cons k (apfEntry k v) (apfMap tl)

/-- One entry of the walk.  Sub-schemas found under the composition keywords
receive the full pass (marking plus walk), inlined here so that the mutual
recursion stays structural; `apfObj` below names that full pass. -/
def apfEntry (k : String) (v : Json) : Json :=
  if k = "properties" ∨ k = "$defs" then
    match v with
    | .obj props => .obj (apfVals props)
    | _ => v
  else if k = "items" then
    match v with
    | .obj m =>
        .obj (if typeIsObject m then setKey (apfMap m) "additionalProperties" (.b false)
              else apfMap m)
    | _ => v
  else if k = "anyOf" ∨ k = "oneOf" ∨ k = "allOf" then
    match v with
    | .arr xs => .arr (apfArr xs)
    | _ => v
  else v

/-- Values of a `properties` / `$defs` map: recurse into those that are maps
(`if propMap, ok := prop.(map[string]any); ok`). -/
def apfVals : JsonMap → JsonMap
  | .nil => .nil
  | .cons k (.obj m) tl =>
      .cons k (.obj (if typeIsObject m then setKey (apfMap m) "additionalProperties" (.b false)
                     else apfMap m)) (apfVals tl)
  | .cons k v tl => .cons k v (apfVals tl)

/-- Elements of an `anyOf` / `oneOf` / `allOf` array: recurse into maps. -/
def apfArr : JsonList → JsonList
  | .nil => .nil
  | .cons (.obj m) tl =>
      .cons (.obj (if typeIsObject m then setKey (apfMap m) "additionalProperties" (.b false)
                   else apfMap m)) (apfArr tl)
  | .cons v tl => .cons v (apfArr tl)

end

/-- `Translator.addAdditionalPropertiesFalse` applied to one schema map:
mark the map itself when it is an object schema, and walk its entries. -/
def apfObj (m : JsonMap) : JsonMap :=
  if typeIsObject m then setKey (apfMap m) "additionalProperties" (.b false) else apfMap m

/-! Reachability of sub-schemas by walking `properties`, `items`, `anyOf`,
`oneOf`, `allOf`, `$defs` — the walk named by the claim and implemented by
the pass. -/

mutual

/-- All schema maps strictly below `m` via the walked keywords. -/
def reachMap : JsonMap → List JsonMap
  | .nil => []
  | .cons k v tl => reachEntry k v ++ reachMap tl

/-- Sub-schemas contributed by one entry. -/
def reachEntry (k : String) (v : Json) : List JsonMap :=
  if k = "properties" ∨ k = "$defs" then
    match v with
    | .obj props => reachVals props
    | _ => []
  else if k = "items" then
    match v with
    | .obj m => m :: reachMap m
    | _ => []
  else if k = "anyOf" ∨ k = "oneOf" ∨ k = "allOf" then
    match v with
    | .arr xs => reachArr xs
    | _ => []
  else []

/-- Sub-schemas among the values of a `properties` / `$defs` map. -/
def reachVals : JsonMap → List JsonMap
  | .nil => []
  | .cons _ (.obj m) tl => (m :: reachMap m) ++ reachVals tl
  | .cons _ _ tl => reachVals tl

/-- Sub-schemas among the elements of a composition array. -/
def reachArr : JsonList → List JsonMap
  | .nil => []
  | .cons (.obj m) tl => (m :: reachMap m) ++ reachArr tl
  | .cons _ tl => reachArr tl

end

/-- A schema map together with everything reachable below it. -/
def reachSchema (m : JsonMap) : List JsonMap := m :: reachMap m

/-! Basic lemmas about map update and the walk. -/

theorem lookupKey_setKey_self :
    ∀ (m : JsonMap) (k : String) (v : Json), lookupKey (setKey m k v) k = some v
  | .nil, k, v => by simp [setKey, lookupKey]
  | .cons k' v' tl, k, v => by
      by_cases h : k = k'
      · simp [setKey, lookupKey, h]
      · simp [setKey, lookupKey, h, lookupKey_setKey_self tl k v]

theorem lookupKey_setKey_ne :
    ∀ (m : JsonMap) (k k' : String) (v : Json), k' ≠ k →
      lookupKey (setKey m k v) k' = lookupKey m k'
  | .nil, k, k', v, h => by simp [setKey, lookupKey, h]
  | .cons ka va tl, k, k', v, h => by
      by_cases hk : k = ka
      · subst hk; simp [setKey, lookupKey, h]
      · by_cases hk' : k' = ka
        · simp [setKey, lookupKey, hk, hk']
        · simp [setKey, lookupKey, hk, hk', lookupKey_setKey_ne tl k k' v h]

theorem setKey_setKey :
    ∀ (m : JsonMap) (k : String) (v : Json), setKey (setKey m k v) k v = setKey m k v
  | .nil, k, v => by simp [setKey]
  | .cons k' v' tl, k, v => by
      by_cases h : k = k'
      · simp [setKey, h]
      · simp [setKey, h, setKey_setKey tl k v]

theorem apfEntry_type_id (v : Json) : apfEntry "type" v = v := by
  cases v <;> simp [apfEntry]

theorem apfEntry_ap_id (v : Json) : apfEntry "additionalProperties" v = v := by
  cases v <;> simp [apfEntry]

theorem lookupKey_apfMap :
    ∀ (m : JsonMap) (k : String),
      lookupKey (apfMap m) k = (lookupKey m k).map (apfEntry k)
  | .nil, k => by simp [apfMap, lookupKey]
  | .cons k' v tl, k => by
      by_cases h : k = k'
      · subst h; simp [apfMap, lookupKey]
      · simp [apfMap, lookupKey, h, lookupKey_apfMap tl k]

theorem lookupKey_apfMap_type (m : JsonMap) :
    lookupKey (apfMap m) "type" = lookupKey m "type" := by
  rw [lookupKey_apfMap]
  cases lookupKey m "type" <;> simp [apfEntry_type_id]

theorem typeIsObject_apfObj (m : JsonMap) : typeIsObject (apfObj m) ↔ typeIsObject m := by
  unfold apfObj
  by_cases h : typeIsObject m
  · simp only [if_pos h]
    unfold typeIsObject
    rw [lookupKey_setKey_ne _ _ _ _ (by decide), lookupKey_apfMap_type]
  · simp only [if_neg h]
    unfold typeIsObject
    rw [lookupKey_apfMap_type]

theorem apfObj_marks_head (m : JsonMap) (h : typeIsObject m) :
    lookupKey (apfObj m) "additionalProperties" = some (Json.b false) := by
  unfold apfObj
  rw [if_pos h, lookupKey_setKey_self]

theorem reachEntry_ap_nil (v : Json) : reachEntry "additionalProperties" v = [] := by
  cases v <;> simp [reachEntry]

theorem reachMap_setKey_ap :
    ∀ (m : JsonMap) (v : Json), reachMap (setKey m "additionalProperties" v) = reachMap m
  | .nil, v => by simp [setKey, reachMap, reachEntry_ap_nil]
  | .cons k' v' tl, v => by
      by_cases h : "additionalProperties" = k'
      · subst h; simp [setKey, reachMap, reachEntry_ap_nil]
      · simp [setKey, h, reachMap, reachMap_setKey_ap tl v]

theorem reachMap_apfObj (m : JsonMap) : reachMap (apfObj m) = reachMap (apfMap m) := by
  unfold apfObj
  by_cases h : typeIsObject m
  · rw [if_pos h, reachMap_setKey_ap]
  · rw [if_neg h]

theorem apfMap_setKey_ap :
    ∀ (m : JsonMap),
      apfMap (setKey m "additionalProperties" (.b false)) =
        setKey (apfMap m) "additionalProperties" (.b false)
  | .nil => by simp [setKey, apfMap, apfEntry_ap_id]
  | .cons k' v' tl => by
      by_cases h : "additionalProperties" = k'
      · subst h; simp [setKey, apfMap, apfEntry_ap_id]
      · simp [setKey, h, apfMap, apfMap_setKey_ap tl]

/-- If the walk is idempotent below `m`, the full pass is idempotent at `m`. -/
theorem apfObj_step_idem (m : JsonMap) (h : apfMap (apfMap m) = apfMap m) :
    apfObj (apfObj m) = apfObj m := by
  by_cases ht : typeIsObject m
  · have hset : typeIsObject (setKey (apfMap m) "additionalProperties" (.b false)) := by
      have h2 := (typeIsObject_apfObj m).mpr ht
      rwa [apfObj, if_pos ht] at h2
    have hm : apfObj m = setKey (apfMap m) "additionalProperties" (.b false) := by
      rw [apfObj, if_pos ht]
    rw [hm, apfObj, if_pos hset, apfMap_setKey_ap, h, setKey_setKey]
  · have hset : ¬ typeIsObject (apfMap m) := by
      have h2 : ¬ typeIsObject (apfObj m) := fun hc => ht ((typeIsObject_apfObj m).mp hc)
      rwa [apfObj, if_neg ht] at h2
    have hm : apfObj m = apfMap m := by rw [apfObj, if_neg ht]
    rw [hm, apfObj, if_neg hset, h]

/-! The marking invariant: every object schema reachable in the output of the
pass carries `additionalProperties = false`. -/

mutual

theorem markedMap :
    ∀ (m : JsonMap) (n : JsonMap), n ∈ reachMap (apfMap m) → typeIsObject n →
      lookupKey n "additionalProperties" = some (Json.b false)
  | .nil, n, h, _ => by simp [apfMap, reachMap] at h
  | .cons k v tl, n, h, ht => by
      simp only [apfMap, reachMap, List.mem_append] at h
      rcases h with h | h
      case inr => exact markedMap tl n h ht
      by_cases hk1 : k = "properties" ∨ k = "$defs"
      · cases v with
        | obj props =>
            simp only [apfEntry, if_pos hk1] at h
            simp only [reachEntry, if_pos hk1] at h
            exact markedVals props n h ht
        | null => simp [apfEntry, reachEntry, if_pos hk1] at h
        | b x => simp [apfEntry, reachEntry, if_pos hk1] at h
        | num i => simp [apfEntry, reachEntry, if_pos hk1] at h
        | str s => simp [apfEntry, reachEntry, if_pos hk1] at h
        | arr xs => simp [apfEntry, reachEntry, if_pos hk1] at h
      · by_cases hk2 : k = "items"
        · cases v with
          | obj mi =>
              simp only [apfEntry, if_neg hk1, if_pos hk2] at h
              simp only [reachEntry, if_neg hk1, if_pos hk2] at h
              rw [show (if typeIsObject mi then
                    setKey (apfMap mi) "additionalProperties" (Json.b false)
                  else apfMap mi) = apfObj mi from rfl] at h
              rcases List.mem_cons.mp h with h | h
              · subst h
                exact apfObj_marks_head mi ((typeIsObject_apfObj mi).mp ht)
              · rw [reachMap_apfObj] at h
                exact markedMap mi n h ht
          | null => simp [apfEntry, reachEntry, if_neg hk1, if_pos hk2] at h
          | b x => simp [apfEntry, reachEntry, if_neg hk1, if_pos hk2] at h
          | num i => simp [apfEntry, reachEntry, if_neg hk1, if_pos hk2] at h
          | str s => simp [apfEntry, reachEntry, if_neg hk1, if_pos hk2] at h
          | arr xs => simp [apfEntry, reachEntry, if_neg hk1, if_pos hk2] at h
        · by_cases hk3 : k = "anyOf" ∨ k = "oneOf" ∨ k = "allOf"
          · cases v with
            | arr xs =>
                simp only [apfEntry, if_neg hk1, if_neg hk2, if_pos hk3] at h
                simp only [reachEntry, if_neg hk1, if_neg hk2, if_pos hk3] at h
                exact markedArr xs n h ht
            | null => simp [apfEntry, reachEntry, if_neg hk1, if_neg hk2, if_pos hk3] at h
            | b x => simp [apfEntry, reachEntry, if_neg hk1, if_neg hk2, if_pos hk3] at h
            | num i => simp [apfEntry, reachEntry, if_neg hk1, if_neg hk2, if_pos hk3] at h
            | str s => simp [apfEntry, reachEntry, if_neg hk1, if_neg hk2, if_pos hk3] at h
            | obj mi => simp [apfEntry, reachEntry, if_neg hk1, if_neg hk2, if_pos hk3] at h
          · cases v <;> simp [apfEntry, reachEntry, if_neg hk1, if_neg hk2, if_neg hk3] at h

theorem markedVals :
    ∀ (m : JsonMap) (n : JsonMap), n ∈ reachVals (apfVals m) → typeIsObject n →
      lookupKey n "additionalProperties" = some (Json.b false)
  | .nil, n, h, _ => by simp [apfVals, reachVals] at h
  | .cons k (.obj mi) tl, n, h, ht => by
      simp only [apfVals] at h
      simp only [reachVals, List.mem_append, List.mem_cons] at h
      rw [show (if typeIsObject mi then
            setKey (apfMap mi) "additionalProperties" (Json.b false)
          else apfMap mi) = apfObj mi from rfl] at h
      rcases h with (h | h) | h
      · subst h
        exact apfObj_marks_head mi ((typeIsObject_apfObj mi).mp ht)
      · rw [reachMap_apfObj] at h
        exact markedMap mi n h ht
      · exact markedVals tl n h ht
  | .cons k .null tl, n, h, ht => by
      simp only [apfVals, reachVals] at h
      exact markedVals tl n h ht
  | .cons k (.b x) tl, n, h, ht => by
      simp only [apfVals, reachVals] at h
      exact markedVals tl n h ht
  | .cons k (.num i) tl, n, h, ht => by
      simp only [apfVals, reachVals] at h
      exact markedVals tl n h ht
  | .cons k (.str s) tl, n, h, ht => by
      simp only [apfVals, reachVals] at h
      exact markedVals tl n h ht
  | .cons k (.arr xs) tl, n, h, ht => by
      simp only [apfVals, reachVals] at h
      exact markedVals tl n h ht

theorem markedArr :
    ∀ (l : JsonList) (n : JsonMap), n ∈ reachArr (apfArr l) → typeIsObject n →
      lookupKey n "additionalProperties" = some (Json.b false)
  | .nil, n, h, _ => by simp [apfArr, reachArr] at h
  | .cons (.obj mi) tl, n, h, ht => by
      simp only [apfArr] at h
      simp only [reachArr, List.mem_append, List.mem_cons] at h
      rw [show (if typeIsObject mi then
            setKey (apfMap mi) "additionalProperties" (Json.b false)
          else apfMap mi) = apfObj mi from rfl] at h
      rcases h with (h | h) | h
      · subst h
        exact apfObj_marks_head mi ((typeIsObject_apfObj mi).mp ht)
      · rw [reachMap_apfObj] at h
        exact markedMap mi n h ht
      · exact markedArr tl n h ht
  | .cons .null tl, n, h, ht => by
      simp only [apfArr, reachArr] at h
      exact markedArr tl n h ht
  | .cons (.b x) tl, n, h, ht => by
      simp only [apfArr, reachArr] at h
      exact markedArr tl n h ht
  | .cons (.num i) tl, n, h, ht => by
      simp only [apfArr, reachArr] at h
      exact markedArr tl n h ht
  | .cons (.str s) tl, n, h, ht => by
      simp only [apfArr, reachArr] at h
      exact markedArr tl n h ht
  | .cons (.arr xs) tl, n, h, ht => by
      simp only [apfArr, reachArr] at h
      exact markedArr tl n h ht

end

/-! Idempotence of the pass. -/

mutual

theorem apfMap_idem : ∀ (m : JsonMap), apfMap (apfMap m) = apfMap m
  | .nil => by simp [apfMap]
  | .cons k v tl => by
      simp only [apfMap]
      rw [apfEntry_idem k v, apfMap_idem tl]

theorem apfEntry_idem : ∀ (k : String) (v : Json), apfEntry k (apfEntry k v) = apfEntry k v
  | k, v => by
      by_cases hk1 : k = "properties" ∨ k = "$defs"
      · cases v with
        | obj props =>
            simp only [apfEntry, if_pos hk1]
            rw [apfVals_idem props]
        | null => simp [apfEntry, if_pos hk1]
        | b x => simp [apfEntry, if_pos hk1]
        | num i => simp [apfEntry, if_pos hk1]
        | str s => simp [apfEntry, if_pos hk1]
        | arr xs => simp [apfEntry, if_pos hk1]
      · by_cases hk2 : k = "items"
        · cases v with
          | obj mi =>
              simp only [apfEntry, if_neg hk1, if_pos hk2]
              rw [show (if typeIsObject mi then
                    setKey (apfMap mi) "additionalProperties" (Json.b false)
                  else apfMap mi) = apfObj mi from rfl,
                show (if typeIsObject (apfObj mi) then
                    setKey (apfMap (apfObj mi)) "additionalProperties" (Json.b false)
                  else apfMap (apfObj mi)) = apfObj (apfObj mi) from rfl,
                apfObj_step_idem mi (apfMap_idem mi)]
          | null => simp [apfEntry, if_neg hk1, if_pos hk2]
          | b x => simp [apfEntry, if_neg hk1, if_pos hk2]
          | num i => simp [apfEntry, if_neg hk1, if_pos hk2]
          | str s => simp [apfEntry, if_neg hk1, if_pos hk2]
          | arr xs => simp [apfEntry, if_neg hk1, if_pos hk2]
        · by_cases hk3 : k = "anyOf" ∨ k = "oneOf" ∨ k = "allOf"
          · cases v with
            | arr xs =>
                simp only [apfEntry, if_neg hk1, if_neg hk2, if_pos hk3]
                rw [apfArr_idem xs]
            | null => simp [apfEntry, if_neg hk1, if_neg hk2, if_pos hk3]
            | b x => simp [apfEntry, if_neg hk1, if_neg hk2, if_pos hk3]
            | num i => simp [apfEntry, if_neg hk1, if_neg hk2, if_pos hk3]
            | str s => simp [apfEntry, if_neg hk1, if_neg hk2, if_pos hk3]
            | obj mi => simp [apfEntry, if_neg hk1, if_neg hk2, if_pos hk3]
          · cases v <;> simp [apfEntry, if_neg hk1, if_neg hk2, if_neg hk3]

theorem apfVals_idem : ∀ (m : JsonMap), apfVals (apfVals m) = apfVals m
  | .nil => by simp [apfVals]
  | .cons k (.obj mi) tl => by
      simp only [apfVals]
      rw [show (if typeIsObject mi then
            setKey (apfMap mi) "additionalProperties" (Json.b false)
          else apfMap mi) = apfObj mi from rfl,
        show (if typeIsObject (apfObj mi) then
            setKey (apfMap (apfObj mi)) "additionalProperties" (Json.b false)
          else apfMap (apfObj mi)) = apfObj (apfObj mi) from rfl,
        apfObj_step_idem mi (apfMap_idem mi), apfVals_idem tl]
  | .cons k .null tl => by simp only [apfVals]; rw [apfVals_idem tl]
  | .cons k (.b x) tl => by simp only [apfVals]; rw [apfVals_idem tl]
  | .cons k (.num i) tl => by simp only [apfVals]; rw [apfVals_idem tl]
  | .cons k (.str s) tl => by simp only [apfVals]; rw [apfVals_idem tl]
  | .cons k (.arr xs) tl => by simp only [apfVals]; rw [apfVals_idem tl]

theorem apfArr_idem : ∀ (l : JsonList), apfArr (apfArr l) = apfArr l
  | .nil => by simp [apfArr]
  | .cons (.obj mi) tl => by
      simp only [apfArr]
      rw [show (if typeIsObject mi then
            setKey (apfMap mi) "additionalProperties" (Json.b false)
          else apfMap mi) = apfObj mi from rfl,
        show (if typeIsObject (apfObj mi) then
            setKey (apfMap (apfObj mi)) "additionalProperties" (Json.b false)
          else apfMap (apfObj mi)) = apfObj (apfObj mi) from rfl,
        apfObj_step_idem mi (apfMap_idem mi), apfArr_idem tl]
  | .cons .null tl => by simp only [apfArr]; rw [apfArr_idem tl]
  | .cons (.b x) tl => by simp only [apfArr]; rw [apfArr_idem tl]
  | .cons (.num i) tl => by simp only [apfArr]; rw [apfArr_idem tl]
  | .cons (.str s) tl => by simp only [apfArr]; rw [apfArr_idem tl]
  | .cons (.arr xs) tl => by simp only [apfArr]; rw [apfArr_idem tl]

end

/-- Concrete schema used to witness C2: an object with one object property. -/
def c2ExampleSchema : JsonMap :=
  .cons "type" (.str "object")
    (.cons "properties"
      (.obj (.cons "inner" (.obj (.cons "type" (.str "object") .nil)) .nil)) .nil)

/-- The translated inner object sub-schema of `c2ExampleSchema`. -/
def c2ExampleInner : JsonMap :=
  .cons "type" (.str "object") (.cons "additionalProperties" (.b false) .nil)

/-- C2: for every unified JSONSchema (rendered, as in
`Translator.prepareOpenAISchema`, as a JSON object map), the Dialect A
(OpenAI) strict translation pass `addAdditionalPropertiesFalse` leaves
`additionalProperties = false` on every object sub-schema reachable by
recursively walking `properties`, `items`, `anyOf`, `oneOf`, `allOf` and
`$defs`, and the pass is idempotent. -/
theorem c2_strict_translation_marks_objects_and_is_idempotent :
    (∀ (m n : JsonMap), n ∈ reachSchema (apfObj m) → typeIsObject n →
        lookupKey n "additionalProperties" = some (Json.b false))
    ∧ (∀ m : JsonMap, apfObj (apfObj m) = apfObj m) := by
  constructor
  · intro m n h ht
    rcases List.mem_cons.mp h with h | h
    · subst h
      exact apfObj_marks_head m ((typeIsObject_apfObj m).mp ht)
    · rw [reachMap_apfObj] at h
      exact markedMap m n h ht
  · intro m
    exact apfObj_step_idem m (apfMap_idem m)

/-- Witness for C2 at a concrete schema: the reachable inner object schema of
`c2ExampleSchema` is marked, and the pass is idempotent there. -/
theorem c2_witness :
    c2ExampleInner ∈ reachSchema (apfObj c2ExampleSchema)
    ∧ typeIsObject c2ExampleInner
    ∧ lookupKey c2ExampleInner "additionalProperties" = some (Json.b false)
    ∧ apfObj (apfObj c2ExampleSchema) = apfObj c2ExampleSchema := by
  have h1 : c2ExampleInner ∈ reachSchema (apfObj c2ExampleSchema) := by decide
  have h2 : typeIsObject c2ExampleInner := by decide
  exact ⟨h1, h2,
    c2_strict_translation_marks_objects_and_is_idempotent.1 c2ExampleSchema c2ExampleInner h1 h2,
    c2_strict_translation_marks_objects_and_is_idempotent.2 c2ExampleSchema⟩

/-! ## Unified type model (pkg/types): Go string-typed enums are embedded as
`String` constants, structs as structures with Go zero values as defaults.
`CreatedAt` timestamps and the opaque `Metadata` map are omitted (no claim
touches them; the refinement claim explicitly sets timestamps aside). -/

def ProviderOpenAI : String := "openai"

def ProviderAnthropic : String := "anthropic"

def ProviderGoogle : String := "google"

def RoleSystem : String := "system"

def RoleUser : String := "user"

def RoleAssistant : String := "assistant"

def RoleTool : String := "tool"

def ContentTypeText : String := "text"

def ContentTypeImage : String := "image"

def ContentTypeToolUse : String := "tool_use"

def ContentTypeToolResult : String := "tool_result"

def StopReasonEnd : String := "end"

def StopReasonMaxTokens : String := "max_tokens"

def StopReasonToolUse : String := "tool_use"

def StopReasonStopSequence : String := "stop_sequence"

def StopReasonContentFilter : String := "content_filter"

def FeatureStreaming : String := "streaming"

def FeatureStructuredOutput : String := "structured_output"

def FeatureTools : String := "tools"

def FeatureVision : String := "vision"

def FeatureBatch : String := "batch"

def FeatureJSON : String := "json_mode"

/-- `types.ContentBlock`; `ToolInput any` is `Option Json` (`none` = Go nil). -/
structure ContentBlock where
  type : String := ""
  text : String := ""
  imageURL : String := ""
  imageBase64 : String := ""
  mediaType : String := ""
  toolUseID : String := ""
  toolName : String := ""
  toolInput : Option Json := none
  toolResultID : String := ""
  isError : Bool := false
  deriving DecidableEq

/-- `types.Message`. -/
structure Message where
  role : String := ""
  content : List ContentBlock := []
  deriving DecidableEq

/-- `types.NewTextMessage`. -/
def NewTextMessage (role text : String) : Message :=
  { role := role, content := [{ type := ContentTypeText, text := text }] }

/-- `types.ToolCall`. -/
structure ToolCall where
  id : String := ""
  name : String := ""
  input : Option Json := none
  deriving DecidableEq

/-- `types.Usage` (token counts; Go `int` as `Int`). -/
structure Usage where
  inputTokens : Int := 0
  outputTokens : Int := 0
  totalTokens : Int := 0
  cachedTokens : Int := 0
  reasoningTokens : Int := 0
  deriving DecidableEq

/-- `types.CompletionResponse` (without `CreatedAt` / `Metadata`). -/
structure CompletionResponse where
  id : String := ""
  provider : String := ""
  model : String := ""
  content : List ContentBlock := []
  stopReason : String := ""
  usage : Usage := {}
  toolCalls : List ToolCall := []
  deriving DecidableEq

/-- `types.ResponseFormat`; the schema is carried in its `ToMap` rendering. -/
structure ResponseFormat where
  type : String := ""
  name : String := ""
  description : String := ""
  schema : Option JsonMap := none
  strict : Option Bool := none
  deriving DecidableEq

/-- `types.Tool`; `Parameters` is carried in its `ToMap` rendering. -/
structure Tool where
  name : String := ""
  description : String := ""
  parameters : JsonMap := .nil
  deriving DecidableEq

/-- `types.ToolChoice`. -/
structure ToolChoice where
  type : String := ""
  name : String := ""
  disableParallelToolUse : Bool := false
  deriving DecidableEq

/-- `types.CompletionRequest`.  The float-valued generation controls
(`Temperature`, `TopP`) are pointer pass-throughs read by no claim and are
omitted from the embedding. -/
structure CompletionRequest where
  provider : String := ""
  model : String := ""
  messages : List Message := []
  maxTokens : Option Int := none
  topK : Option Int := none
  stopSequences : List String := []
  responseFormat : Option ResponseFormat := none
  tools : List Tool := []
  toolChoice : Option ToolChoice := none
  stream : Bool := false
  deriving DecidableEq

/-! ## Error taxonomy (pkg/errors/errors.go). -/

/-- `errors.RouterError` (the chained `Cause` and `Details` map carry no
information used by any claim and are omitted; zero values mean unset). -/
structure RouterError where
  code : String := ""
  message : String := ""
  provider : String := ""
  statusCode : Int := 0
  deriving DecidableEq

def ErrCodeInvalidRequest : String := "invalid_request"

def ErrCodeRateLimit : String := "rate_limit"

def ErrCodeServerError : String := "server_error"

def ErrCodeUnsupportedFeature : String := "unsupported_feature"

def ErrCodeProviderUnavailable : String := "provider_unavailable"

def ErrCodeInvalidAPIKey : String := "invalid_api_key"

def ErrCodeModelNotFound : String := "model_not_found"

def ErrCodeContextLength : String := "context_length_exceeded"

/-- `errors.NewError`. -/
def NewError (code message : String) : RouterError :=
  { code := code, message := message }

/-- `RouterError.WithProvider`. -/
def RouterError.withProvider (e : RouterError) (p : String) : RouterError :=
  { e with provider := p }

/-- `RouterError.WithStatusCode`. -/
def RouterError.withStatusCode (e : RouterError) (c : Int) : RouterError :=
  { e with statusCode := c }

/-- `errors.ErrInvalidRequest`. -/
def ErrInvalidRequest (message : String) : RouterError :=
  NewError ErrCodeInvalidRequest message

/-- `errors.ErrRateLimit`. -/
def ErrRateLimit (provider message : String) : RouterError :=
  ((NewError ErrCodeRateLimit message).withProvider provider).withStatusCode 429

/-- `errors.ErrServerError`. -/
def ErrServerError (provider message : String) : RouterError :=
  ((NewError ErrCodeServerError message).withProvider provider).withStatusCode 500

/-- `errors.ErrUnsupportedFeature`. -/
def ErrUnsupportedFeature (provider feature : String) : RouterError :=
  (NewError ErrCodeUnsupportedFeature
    ("provider " ++ provider ++ " does not support feature: " ++ feature)).withProvider provider

/-- `errors.ErrProviderUnavailable`. -/
def ErrProviderUnavailable (provider message : String) : RouterError :=
  (NewError ErrCodeProviderUnavailable message).withProvider provider

/-- `errors.ErrInvalidAPIKey`. -/
def ErrInvalidAPIKey (provider : String) : RouterError :=
  ((NewError ErrCodeInvalidAPIKey "invalid or missing API key").withProvider provider).withStatusCode 401

/-- `errors.ErrModelNotFound`. -/
def ErrModelNotFound (provider model : String) : RouterError :=
  ((NewError ErrCodeModelNotFound ("model not found: " ++ model)).withProvider provider).withStatusCode 404

/-- `errors.ErrContextLength`. -/
def ErrContextLength (provider message : String) : RouterError :=
  ((NewError ErrCodeContextLength message).withProvider provider).withStatusCode 400

/-! Go `strings.Contains`, over character lists. -/

/-- Whether the first list is a prefix of the second. -/
def hasPrefixCL : List Char → List Char → Bool
  | [], _ => true
  | _ :: _, [] => false
  | p :: ps, c :: cs => p = c && hasPrefixCL ps cs

/-- Whether the second list occurs as a contiguous sublist of the first. -/
def hasSubCL : List Char → List Char → Bool
  | l, sub =>
    hasPrefixCL sub l ||
      match l with
      | [] => false
      | _ :: tl => hasSubCL tl sub

/-- `strings.Contains(s, sub)`. -/
def goContains (s sub : String) : Bool := hasSubCL s.data sub.data

/-! ## Provider error mapping (`Client.mapAPIError` of each adapter). -/

namespace OpenAI

/-- openai `APIError`. -/
structure APIError where
  message : String := ""
  type : String := ""
  param : String := ""
  code : String := ""
  deriving DecidableEq

/-- openai `Client.mapAPIError` (part_005 lines 174-191). -/
def mapAPIError (apiErr : APIError) (statusCode : Int) : RouterError :=
  if statusCode = 401 then
    (ErrInvalidAPIKey ProviderOpenAI).withStatusCode statusCode
  else if statusCode = 429 then
    (ErrRateLimit ProviderOpenAI apiErr.message).withStatusCode statusCode
  else if statusCode = 404 then
    (ErrModelNotFound ProviderOpenAI apiErr.message).withStatusCode statusCode
  else if statusCode = 400 then
    if goContains apiErr.message "context_length" then
      (ErrContextLength ProviderOpenAI apiErr.message).withStatusCode statusCode
    else
      ((ErrInvalidRequest apiErr.message).withProvider ProviderOpenAI).withStatusCode statusCode
  else
    (ErrServerError ProviderOpenAI apiErr.message).withStatusCode statusCode

end OpenAI

namespace Anthropic

/-- anthropic `APIError`. -/
structure APIError where
  type : String := ""
  message : String := ""
  deriving DecidableEq

/-- anthropic `Client.mapAPIError` (transform_test.go part, lines 681-698). -/
def mapAPIError (apiErr : APIError) (statusCode : Int) : RouterError :=
  if statusCode = 401 then
    (ErrInvalidAPIKey ProviderAnthropic).withStatusCode statusCode
  else if statusCode = 429 then
    (ErrRateLimit ProviderAnthropic apiErr.message).withStatusCode statusCode
  else if statusCode = 404 then
    (ErrModelNotFound ProviderAnthropic apiErr.message).withStatusCode statusCode
  else if statusCode = 400 then
    if goContains apiErr.message "context" || goContains apiErr.message "token" then
      (ErrContextLength ProviderAnthropic apiErr.message).withStatusCode statusCode
    else
      ((ErrInvalidRequest apiErr.message).withProvider ProviderAnthropic).withStatusCode statusCode
  else
    (ErrServerError ProviderAnthropic apiErr.message).withStatusCode statusCode

end Anthropic

namespace Google

/-- google `APIError`. -/
structure APIError where
  code : Int := 0
  message : String := ""
  status : String := ""
  deriving DecidableEq

/-- google `Client.mapAPIError` (translator.go part, lines 566-583). -/
def mapAPIError (apiErr : APIError) (statusCode : Int) : RouterError :=
  if statusCode = 401 then
    (ErrInvalidAPIKey ProviderGoogle).withStatusCode statusCode
  else if statusCode = 429 then
    (ErrRateLimit ProviderGoogle apiErr.message).withStatusCode statusCode
  else if statusCode = 404 then
    (ErrModelNotFound ProviderGoogle apiErr.message).withStatusCode statusCode
  else if statusCode = 400 then
    if goContains apiErr.message "context" || goContains apiErr.message "token" then
      (ErrContextLength ProviderGoogle apiErr.message).withStatusCode statusCode
    else
      ((ErrInvalidRequest apiErr.message).withProvider ProviderGoogle).withStatusCode statusCode
  else
    (ErrServerError ProviderGoogle apiErr.message).withStatusCode statusCode

end Google

/-- Counterexample to C6 as stated: a 400 response whose message contains the
substring "token" is mapped by the OpenAI adapter to `invalid_request`, not to
`context_length_exceeded` (OpenAI's 400 branch only looks for the substring
"context_length"). -/
theorem c6_counterexample :
    goContains "token limit exceeded" "token" = true
    ∧ (OpenAI.mapAPIError { message := "token limit exceeded" } 400).code = ErrCodeInvalidRequest
    ∧ ErrCodeInvalidRequest ≠ ErrCodeContextLength := by
  exact ⟨by decide, by decide, by decide⟩

/-- C6 (amended): the per-provider status table, where the 400 branch tests
the substring "context_length" for OpenAI and the substrings "context" or
"token" for Anthropic and Google; every other status maps to `server_error`. -/
theorem c6_amended_status_mapping :
    ∀ (msg : String) (status : Int),
      (OpenAI.mapAPIError { message := msg } status).code =
        (if status = 401 then ErrCodeInvalidAPIKey
         else if status = 429 then ErrCodeRateLimit
         else if status = 404 then ErrCodeModelNotFound
         else if status = 400 then
           if goContains msg "context_length" then ErrCodeContextLength
           else ErrCodeInvalidRequest
         else ErrCodeServerError)
      ∧ (Anthropic.mapAPIError { message := msg } status).code =
        (if status = 401 then ErrCodeInvalidAPIKey
         else if status = 429 then ErrCodeRateLimit
         else if status = 404 then ErrCodeModelNotFound
         else if status = 400 then
           if goContains msg "context" || goContains msg "token" then ErrCodeContextLength
           else ErrCodeInvalidRequest
         else ErrCodeServerError)
      ∧ (Google.mapAPIError { message := msg } status).code =
        (if status = 401 then ErrCodeInvalidAPIKey
         else if status = 429 then ErrCodeRateLimit
         else if status = 404 then ErrCodeModelNotFound
         else if status = 400 then
           if goContains msg "context" || goContains msg "token" then ErrCodeContextLength
           else ErrCodeInvalidRequest
         else ErrCodeServerError) := by
  intro msg status
  refine ⟨?_, ?_, ?_⟩
  · simp only [OpenAI.mapAPIError, ErrInvalidAPIKey, ErrRateLimit, ErrModelNotFound,
      ErrContextLength, ErrInvalidRequest, ErrServerError, NewError,
      RouterError.withProvider, RouterError.withStatusCode]
    split_ifs <;> rfl
  · simp only [Anthropic.mapAPIError, ErrInvalidAPIKey, ErrRateLimit, ErrModelNotFound,
      ErrContextLength, ErrInvalidRequest, ErrServerError, NewError,
      RouterError.withProvider, RouterError.withStatusCode]
    split_ifs <;> rfl
  · simp only [Google.mapAPIError, ErrInvalidAPIKey, ErrRateLimit, ErrModelNotFound,
      ErrContextLength, ErrInvalidRequest, ErrServerError, NewError,
      RouterError.withProvider, RouterError.withStatusCode]
    split_ifs <;> rfl

/-! ## Feature support tables (`Client.SupportsFeature` of each adapter). -/

/-- openai `Client.SupportsFeature`. -/
def OpenAI.supportsFeature (feature : String) : Bool :=
  if feature = FeatureStreaming || feature = FeatureStructuredOutput ||
      feature = FeatureTools || feature = FeatureVision ||
      feature = FeatureBatch || feature = FeatureJSON then
    true
  else
    false

/-- anthropic `Client.SupportsFeature` (no simple JSON mode, only structured
output). -/
def Anthropic.supportsFeature (feature : String) : Bool :=
  if feature = FeatureStreaming || feature = FeatureStructuredOutput ||
      feature = FeatureTools || feature = FeatureVision ||
      feature = FeatureBatch then
    true
  else if feature = FeatureJSON then
    false
  else
    false

/-- google `Client.SupportsFeature` (batch via Vertex AI). -/
def Google.supportsFeature (feature : String) : Bool :=
  if feature = FeatureStreaming || feature = FeatureStructuredOutput ||
      feature = FeatureTools || feature = FeatureVision ||
      feature = FeatureJSON then
    true
  else if feature = FeatureBatch then
    true
  else
    false

/-! ## Router (part_001): provider registry, feature policy, dispatch. -/

def PolicyError : String := "error"

def PolicyWarn : String := "warn"

def PolicyIgnore : String := "ignore"

/-- The registry maps each provider tag to the adapter of that tag
(`WithOpenAI` / `WithAnthropic` / `WithGoogle`), so capability lookup is by
tag. -/
def supportsFeatureOf (providerName feature : String) : Bool :=
  if providerName = ProviderOpenAI then OpenAI.supportsFeature feature
  else if providerName = ProviderAnthropic then Anthropic.supportsFeature feature
  else if providerName = ProviderGoogle then Google.supportsFeature feature
  else false

/-- `Router.handleUnsupportedFeature`. -/
def handleUnsupportedFeature (policy providerName feature : String) : Option RouterError :=
  if policy = PolicyError then some (ErrUnsupportedFeature providerName feature)
  else if policy = PolicyWarn then none
  else if policy = PolicyIgnore then none
  else some (ErrUnsupportedFeature providerName feature)

/-- The response-format type of a request, `""` when absent. -/
def reqFormatType (req : CompletionRequest) : String :=
  match req.responseFormat with
  | some rf => rf.type
  | none => ""

/-- Whether some message of the request contains an image content block. -/
def reqHasImage (req : CompletionRequest) : Bool :=
  req.messages.any fun m => m.content.any fun b => b.type = ContentTypeImage

/-- `Router.checkFeatureSupport`: the four checks in source order; note that a
failing check returns the handler's result even under the warn/ignore
policies (skipping the remaining checks), exactly as the Go early return
does. -/
def checkFeatureSupport (policy providerName : String) (req : CompletionRequest) :
    Option RouterError :=
  if req.responseFormat.isSome && reqFormatType req = "json_schema" &&
      !supportsFeatureOf providerName FeatureStructuredOutput then
    handleUnsupportedFeature policy providerName FeatureStructuredOutput
  else if req.responseFormat.isSome && reqFormatType req = "json" &&
      !supportsFeatureOf providerName FeatureJSON then
    handleUnsupportedFeature policy providerName FeatureJSON
  else if req.tools.length > 0 && !supportsFeatureOf providerName FeatureTools then
    handleUnsupportedFeature policy providerName FeatureTools
  else if reqHasImage req && !supportsFeatureOf providerName FeatureVision then
    handleUnsupportedFeature policy providerName FeatureVision
  else
    none

/-- `Router.Complete` up to provider delegation: `.ok ()` stands for the call
reaching `p.Complete` (an HTTP request being issued). -/
def routerComplete (registered : String → Bool) (policy : String)
    (req : CompletionRequest) : Except RouterError Unit :=
  if registered req.provider then
    match checkFeatureSupport policy req.provider req with
    | some e => .error e
    | none => .ok ()
  else
    .error (ErrProviderUnavailable req.provider "provider not configured")

/-- `Router.Stream` up to provider delegation: a streaming-support check, then
the same feature checks. -/
def routerStream (registered : String → Bool) (policy : String)
    (req : CompletionRequest) : Except RouterError Unit :=
  if registered req.provider then
    if !supportsFeatureOf req.provider FeatureStreaming then
      .error (ErrUnsupportedFeature req.provider FeatureStreaming)
    else
      match checkFeatureSupport policy req.provider req with
      | some e => .error e
      | none => .ok ()
  else
    .error (ErrProviderUnavailable req.provider "provider not configured")

/-- C7: under the default `error` policy, any Complete or Stream request that
targets Anthropic with `response_format.type = "json"` fails with an
`unsupported_feature` RouterError and never reaches the adapter (no HTTP
request is issued; `.ok ()` is the only delegating outcome). -/
theorem c7_json_mode_on_anthropic_is_refused :
    ∀ (registered : String → Bool) (req : CompletionRequest) (rf : ResponseFormat),
      registered ProviderAnthropic = true →
      req.provider = ProviderAnthropic →
      req.responseFormat = some rf →
      rf.type = "json" →
      routerComplete registered PolicyError req =
          .error (ErrUnsupportedFeature ProviderAnthropic FeatureJSON)
        ∧ routerStream registered PolicyError req =
          .error (ErrUnsupportedFeature ProviderAnthropic FeatureJSON) := by
  intro registered req rf hreg hprov hrf htype
  have hcheck : checkFeatureSupport PolicyError ProviderAnthropic req =
      some (ErrUnsupportedFeature ProviderAnthropic FeatureJSON) := by
    rw [checkFeatureSupport]
    rw [if_neg (by simp [reqFormatType, hrf, htype, ProviderAnthropic])]
    rw [if_pos (by
      simp [reqFormatType, hrf, htype, supportsFeatureOf, ProviderAnthropic,
        ProviderOpenAI, Anthropic.supportsFeature, FeatureJSON, FeatureStreaming,
        FeatureStructuredOutput, FeatureTools, FeatureVision, FeatureBatch])]
    simp [handleUnsupportedFeature, PolicyError]
  constructor
  · rw [routerComplete, hprov, if_pos hreg, hcheck]
  · rw [routerStream, hprov, if_pos hreg,
      if_neg (by
        simp [supportsFeatureOf, ProviderAnthropic, ProviderOpenAI,
          Anthropic.supportsFeature, FeatureStreaming]),
      hcheck]

/-- Witness for C7 at a concrete request. -/
theorem c7_witness :
    routerComplete (fun p => p = ProviderAnthropic) PolicyError
        { provider := ProviderAnthropic,
          model := "claude-3-5-sonnet-20241022",
          messages := [NewTextMessage RoleUser "Extract this as JSON"],
          responseFormat := some { type := "json" } } =
      .error (ErrUnsupportedFeature ProviderAnthropic FeatureJSON) := by
  exact (c7_json_mode_on_anthropic_is_refused (fun p => p = ProviderAnthropic)
    { provider := ProviderAnthropic,
      model := "claude-3-5-sonnet-20241022",
      messages := [NewTextMessage RoleUser "Extract this as JSON"],
      responseFormat := some { type := "json" } }
    { type := "json" } (by decide) rfl rfl rfl).1

/-! ## Anthropic request transformer (part_006). -/

namespace Anthropic

/-- anthropic `ImageSource`. -/
structure ImageSource where
  type : String := ""
  mediaType : String := ""
  data : String := ""
  url : String := ""
  deriving DecidableEq

/-- anthropic wire `ContentBlock` (the tool_result `Content any` only ever
receives a string from this transformer, embedded as `contentText`). -/
structure WireBlock where
  type : String := ""
  text : String := ""
  source : Option ImageSource := none
  id : String := ""
  name : String := ""
  input : Option Json := none
  toolUseID : String := ""
  contentText : String := ""
  isError : Bool := false
  deriving DecidableEq

/-- anthropic `Message.Content`: string or block list. -/
inductive WireContent where
  | str (s : String)
  | blocks (bs : List WireBlock)
  deriving DecidableEq

/-- anthropic wire `Message`. -/
structure WireMessage where
  role : String := ""
  content : WireContent := .str ""
  deriving DecidableEq

/-- anthropic `OutputFormat`. -/
structure OutputFormat where
  type : String := ""
  schema : Option JsonMap := none
  deriving DecidableEq

/-- anthropic `OutputConfig`. -/
structure OutputConfig where
  format : Option OutputFormat := none
  deriving DecidableEq

/-- anthropic wire `Tool`. -/
structure WireTool where
  name : String := ""
  description : String := ""
  inputSchema : JsonMap := .nil
  deriving DecidableEq

/-- anthropic wire `ToolChoice`. -/
structure WireToolChoice where
  type : String := ""
  name : String := ""
  disableParallelToolUse : Bool := false
  deriving DecidableEq

/-- anthropic `MessagesRequest` (temperature / topP are pointer pass-throughs
read by no claim and are omitted; `System any` only ever receives a non-empty
string, embedded as `Option String`). -/
structure MessagesRequest where
  model : String := ""
  messages : List WireMessage := []
  maxTokens : Int := 0
  system : Option String := none
  topK : Option Int := none
  stopSequences : List String := []
  stream : Bool := false
  tools : List WireTool := []
  toolChoice : Option WireToolChoice := none
  outputConfig : Option OutputConfig := none
  deriving DecidableEq

/-- anthropic `Transformer.mapRole`. -/
def mapRole (role : String) : String :=
  if role = RoleUser || role = RoleTool then "user"
  else if role = RoleAssistant then "assistant"
  else "user"

/-- anthropic `Transformer.transformContentBlocks`. -/
def transformContentBlocks (blocks : List ContentBlock) : List WireBlock :=
  blocks.foldr
    (fun block acc =>
      if block.type = ContentTypeText then
        { type := "text", text := block.text } :: acc
      else if block.type = ContentTypeImage then
        { type := "image",
          source :=
            if block.imageBase64 ≠ "" then
              some { type := "base64", mediaType := block.mediaType, data := block.imageBase64 }
            else if block.imageURL ≠ "" then
              some { type := "url", url := block.imageURL }
            else none } :: acc
      else if block.type = ContentTypeToolUse then
        { type := "tool_use", id := block.toolUseID, name := block.toolName,
          input := block.toolInput } :: acc
      else if block.type = ContentTypeToolResult then
        { type := "tool_result", toolUseID := block.toolResultID,
          contentText := block.text, isError := block.isError } :: acc
      else acc)
    []

/-- One step of the Go system accumulator:
`if system != "" { system += "\n" }; system += block.Text`. -/
def sysStep (acc t : String) : String :=
  (if acc ≠ "" then acc ++ "\n" else acc) ++ t

/-- The system texts of one message (text blocks only). -/
def sysFoldMsg (acc : String) (blocks : List ContentBlock) : String :=
  blocks.foldl (fun a block => if block.type = ContentTypeText then sysStep a block.text else a) acc

/-- anthropic `Transformer.transformMessages`, with the running system string
made explicit (Go mutates a local `system`). -/
def transformMessagesGo : List Message → String → List WireMessage × String
  | [], system => ([], system)
  | msg :: rest, system =>
    if msg.role = RoleSystem then
      transformMessagesGo rest (sysFoldMsg system msg.content)
    else
      let content : WireContent :=
        match msg.content with
        | [b] =>
            if b.type = ContentTypeText then .str b.text
            else .blocks (transformContentBlocks msg.content)
        | _ => .blocks (transformContentBlocks msg.content)
      let r := transformMessagesGo rest system
      ({ role := mapRole msg.role, content := content } :: r.1, r.2)

/-- anthropic `Transformer.transformMessages` (entry point, system starts empty). -/
def transformMessages (messages : List Message) : List WireMessage × String :=
  transformMessagesGo messages ""

/-- schema `Translator.ToAnthropic` (translator.go): the response-format
schema gets the recursive `additionalProperties: false` pass. -/
def toAnthropicFormat (rf : ResponseFormat) : Option OutputConfig :=
  if rf.type = "text" then none
  else if rf.type = "json" then none
  else if rf.type = "json_schema" then
    match rf.schema with
    | some s => some { format := some { type := "json_schema", schema := some (apfObj s) } }
    | none => none
  else none

/-- anthropic `Transformer.transformTools` (via `Translator.ToolsToAnthropic`:
the tool schema is passed through unmodified). -/
def transformTools (tools : List Tool) : List WireTool :=
  tools.map fun t => { name := t.name, description := t.description, inputSchema := t.parameters }

/-- anthropic `Transformer.transformToolChoice`. -/
def transformToolChoice (tc : ToolChoice) : WireToolChoice :=
  { type :=
      if tc.type = "auto" then "auto"
      else if tc.type = "required" then "any"
      else if tc.type = "none" then "none"
      else if tc.type = "tool" then "tool"
      else "auto",
    name := if tc.type = "tool" then tc.name else "",
    disableParallelToolUse := tc.disableParallelToolUse }

/-- anthropic `Transformer.TransformRequest`.  Go initializes `MaxTokens:
8192 // Default` and overwrites it when `req.MaxTokens != nil`; the
mutate-after-init sequence is rendered as one record. -/
def transformRequest (req : CompletionRequest) : MessagesRequest :=
  let ms := transformMessages req.messages
  { model := req.model,
    maxTokens := match req.maxTokens with | some n => n | none => 8192,
    topK := req.topK,
    stopSequences := req.stopSequences,
    stream := req.stream,
    messages := ms.1,
    system := if ms.2 ≠ "" then some ms.2 else none,
    outputConfig :=
      match req.responseFormat with
      | some rf => toAnthropicFormat rf
      | none => none,
    tools := if req.tools.length > 0 then transformTools req.tools else [],
    toolChoice :=
      match req.toolChoice with
      | some tc => some (transformToolChoice tc)
      | none => none }

end Anthropic

/-- C10: the Anthropic wire request always carries a max_tokens value —
`*req.MaxTokens` when set, and the (unspecified) default 8192 when nil. -/
theorem c10_anthropic_max_tokens_defaulted :
    ∀ (req : CompletionRequest),
      (req.maxTokens = none → (Anthropic.transformRequest req).maxTokens = 8192)
      ∧ (∀ n : Int, req.maxTokens = some n → (Anthropic.transformRequest req).maxTokens = n) := by
  intro req
  constructor
  · intro h; simp [Anthropic.transformRequest, h]
  · intro n h; simp [Anthropic.transformRequest, h]

/-- Witness for C10 at concrete requests, one with MaxTokens set and one
without. -/
theorem c10_witness :
    (Anthropic.transformRequest
        { model := "claude-sonnet-4-20250514",
          messages := [NewTextMessage RoleUser "Hello"] }).maxTokens = 8192
    ∧ (Anthropic.transformRequest
        { model := "claude-sonnet-4-20250514",
          messages := [NewTextMessage RoleUser "Hello"],
          maxTokens := some 1000 }).maxTokens = 1000 := by
  exact ⟨(c10_anthropic_max_tokens_defaulted _).1 rfl,
    (c10_anthropic_max_tokens_defaulted _).2 1000 rfl⟩

/-! ## A JSON text parser standing in for `encoding/json.Unmarshal` into
`any`.  It supports null / booleans / integers / strings (with the common
escapes) / arrays / objects, which covers every JSON value this development
evaluates; fractional and exponent number forms are not modelled.  `fuel`
bounds recursion depth; each nested value consumes at least one character, so
`length + 1` fuel always suffices. -/

/-- Skip JSON whitespace. -/
def skipWs : List Char → List Char
  | c :: cs => if c = ' ' || c = '\n' || c = '\t' || c = '\r' then skipWs cs else c :: cs
  | [] => []

/-- Parse the body of a JSON string literal after the opening quote. -/
def parseStrBody : List Char → Option (String × List Char)
  | [] => none
  | c :: cs =>
    if c = '"' then some ("", cs)
    else if c = '\\' then
      match cs with
      | [] => none
      | e :: cs' =>
        let d : Char :=
          if e = 'n' then '\n' else if e = 't' then '\t' else if e = 'r' then '\r' else e
        match parseStrBody cs' with
        | some (s, rest) => some (String.mk (d :: s.data), rest)
        | none => none
    else
      match parseStrBody cs with
      | some (s, rest) => some (String.mk (c :: s.data), rest)
      | none => none

/-- Parse a run of decimal digits. -/
def parseDigits : List Char → Nat → List Char → Option (Nat × List Char)
  | [], acc, consumed => if consumed = [] then none else some (acc, [])
  | c :: cs, acc, consumed =>
    if c.isDigit then parseDigits cs (acc * 10 + (c.toNat - 48)) (c :: consumed)
    else if consumed = [] then none
    else some (acc, c :: cs)

mutual

/-- Parse one JSON value. -/
def parseVal : Nat → List Char → Option (Json × List Char)
  | 0, _ => none
  | fuel + 1, input =>
    match skipWs input with
    | [] => none
    | c :: cs =>
      if c = 'n' then
        match cs with
        | 'u' :: 'l' :: 'l' :: rest => some (.null, rest)
        | _ => none
      else if c = 't' then
        match cs with
        | 'r' :: 'u' :: 'e' :: rest => some (.b true, rest)
        | _ => none
      else if c = 'f' then
        match cs with
        | 'a' :: 'l' :: 's' :: 'e' :: rest => some (.b false, rest)
        | _ => none
      else if c = '"' then
        match parseStrBody cs with
        | some (s, rest) => some (.str s, rest)
        | none => none
      else if c = '-' then
        match parseDigits cs 0 [] with
        | some (n, rest) => some (.num (-(n : Int)), rest)
        | none => none
      else if c.isDigit then
        match parseDigits (c :: cs) 0 [] with
        | some (n, rest) => some (.num (n : Int), rest)
        | none => none
      else if c = '[' then
        match skipWs cs with
        | ']' :: rest => some (.arr .nil, rest)
        | cs' => parseArrElems fuel cs'
      else if c = '\x7b' then
        match skipWs cs with
        | '\x7d' :: rest => some (.obj .nil, rest)
        | cs' => parseObjEntries fuel cs'
      else none

/-- Parse the elements of a non-empty array, starting at the first element. -/
def parseArrElems : Nat → List Char → Option (Json × List Char)
  | 0, _ => none
  | fuel + 1, input =>
    match parseVal fuel input with
    | none => none
    | some (v, rest) =>
      match skipWs rest with
      | ',' :: rest' =>
        match parseArrElems fuel rest' with
        | some (.arr xs, rest'') => some (.arr (.cons v xs), rest'')
        | _ => none
      | ']' :: rest' => some (.arr (.cons v .nil), rest')
      | _ => none

/-- Parse the entries of a non-empty object, starting at the first key. -/
def parseObjEntries : Nat → List Char → Option (Json × List Char)
  | 0, _ => none
  | fuel + 1, input =>
    match skipWs input with
    | '"' :: cs =>
      match parseStrBody cs with
      | none => none
      | some (k, rest) =>
        match skipWs rest with
        | ':' :: rest' =>
          match parseVal fuel rest' with
          | none => none
          | some (v, rest'') =>
            match skipWs rest'' with
            | ',' :: rest3 =>
              match parseObjEntries fuel rest3 with
              | some (.obj m, rest4) => some (.obj (.cons k v m), rest4)
              | _ => none
            | '\x7d' :: rest3 => some (.obj (.cons k v .nil), rest3)
            | _ => none
        | _ => none
    | _ => none

end

/-- `json.Unmarshal` of a whole input: one value and nothing but whitespace
after it. -/
def jsonParse (s : String) : Option Json :=
  match parseVal (s.data.length + 1) s.data with
  | some (v, rest) => if skipWs rest = [] then some v else none
  | none => none

/-! ## Google request transformer (part_002). -/

namespace Google

/-- google `InlineData`. -/
structure InlineData where
  mimeType : String := ""
  data : String := ""
  deriving DecidableEq

/-- google `FileData`. -/
structure FileData where
  mimeType : String := ""
  fileURI : String := ""
  deriving DecidableEq

/-- google `FunctionCall`; `Args map[string]any` is `Option JsonMap`
(`none` = Go nil map, as produced by a failing type assertion). -/
structure GFunctionCall where
  name : String := ""
  args : Option JsonMap := none
  deriving DecidableEq

/-- google `FunctionResponse`. -/
structure GFunctionResponse where
  name : String := ""
  response : JsonMap := .nil
  deriving DecidableEq

/-- google `Part`. -/
structure GPart where
  text : String := ""
  inlineData : Option InlineData := none
  fileData : Option FileData := none
  functionCall : Option GFunctionCall := none
  functionResponse : Option GFunctionResponse := none
  deriving DecidableEq

/-- google `Content`. -/
structure GContent where
  role : String := ""
  parts : List GPart := []
  deriving DecidableEq

/-- google `Transformer.mapRole`. -/
def mapRole (role : String) : String :=
  if role = RoleUser || role = RoleTool then "user"
  else if role = RoleAssistant then "model"
  else "user"

/-- google `Transformer.transformParts`.  The tool_result branch runs
`json.Unmarshal(block.Text)` into a map and falls back to
`{"result": block.Text}` on error (an unmarshalled JSON `null` leaves the map
nil). -/
def transformParts (blocks : List ContentBlock) : List GPart :=
  blocks.foldr
    (fun block acc =>
      if block.type = ContentTypeText then
        { text := block.text } :: acc
      else if block.type = ContentTypeImage then
        if block.imageBase64 ≠ "" then
          { inlineData := some { mimeType := block.mediaType, data := block.imageBase64 } } :: acc
        else if block.imageURL ≠ "" then
          { fileData := some { mimeType := block.mediaType, fileURI := block.imageURL } } :: acc
        else acc
      else if block.type = ContentTypeToolUse then
        { functionCall := some
            { name := block.toolName,
              args := match block.toolInput with
                      | some (.obj m) => some m
                      | _ => none } } :: acc
      else if block.type = ContentTypeToolResult then
        { functionResponse := some
            { name := block.toolName,
              response := match jsonParse block.text with
                          | some (.obj m) => m
                          | some .null => .nil
                          | _ => .cons "result" (.str block.text) .nil } } :: acc
      else acc)
    []

/-- The text parts collected from one system message
(`for _, block := range msg.Content { if text ... append }`). -/
def sysParts (blocks : List ContentBlock) : List GPart :=
  blocks.foldr
    (fun block acc =>
      if block.type = ContentTypeText then ({ text := block.text } : GPart) :: acc else acc)
    []

/-- google `Transformer.transformMessages` with the running
`systemInstruction` made explicit: each system message with at least one text
part overwrites it. -/
def transformMessagesGo : List Message → Option GContent → List GContent × Option GContent
  | [], sys => ([], sys)
  | msg :: rest, sys =>
    if msg.role = RoleSystem then
      transformMessagesGo rest
        (if (sysParts msg.content).length > 0 then some { parts := sysParts msg.content } else sys)
    else
      let r := transformMessagesGo rest sys
      ({ role := mapRole msg.role, parts := transformParts msg.content } :: r.1, r.2)

/-- google `Transformer.transformMessages` (entry point, instruction starts nil). -/
def transformMessages (messages : List Message) : List GContent × Option GContent :=
  transformMessagesGo messages none

end Google

/-! String append facts used for the system-channel claims. -/

theorem strData_append (a b : String) : (a ++ b).data = a.data ++ b.data := by
  cases a; cases b; rfl

theorem strAppend_right_empty (s : String) : s ++ "" = s := by
  cases s with
  | mk data => show String.mk (data ++ []) = String.mk data; rw [List.append_nil]

theorem strEmpty_append (s : String) : "" ++ s = s := by
  cases s with
  | mk data => rfl

theorem strAppend_assoc (a b c : String) : a ++ b ++ c = a ++ (b ++ c) := by
  cases a with
  | mk da =>
    cases b with
    | mk db =>
      cases c with
      | mk dc => show String.mk (da ++ db ++ dc) = String.mk (da ++ (db ++ dc))
                 rw [List.append_assoc]

theorem strAppend_newline_ne (a t : String) : a ++ "\n" ++ t ≠ "" := by
  intro h
  have hd : (a ++ "\n" ++ t).data = [] := by rw [h]
  rw [strData_append, strData_append] at hd
  simp at hd

/-! Spec-side renderings of the system-channel behaviour (from the claim's
words, to be compared with the source functions). -/

/-- The texts of all text blocks of all system messages, in order. -/
def systemTexts (messages : List Message) : List String :=
  (messages.filter fun m => m.role = RoleSystem).flatMap
    fun m => (m.content.filter fun b => b.type = ContentTypeText).map fun b => b.text

theorem systemTexts_cons_sys (msg : Message) (rest : List Message)
    (h : msg.role = RoleSystem) :
    systemTexts (msg :: rest) =
      ((msg.content.filter fun b => b.type = ContentTypeText).map fun b => b.text)
        ++ systemTexts rest := by
  simp [systemTexts, List.filter_cons, h]

theorem systemTexts_cons_other (msg : Message) (rest : List Message)
    (h : ¬ msg.role = RoleSystem) :
    systemTexts (msg :: rest) = systemTexts rest := by
  simp [systemTexts, List.filter_cons, h]

/-- Concatenation with newline separators, preserving order. -/
def newlineJoin : List String → String
  | [] => ""
  | [t] => t
  | t :: t' :: ts => t ++ "\n" ++ newlineJoin (t' :: ts)

/-- Continuation form of `newlineJoin`: a separator before every element. -/
def newlineJoinCont : List String → String
  | [] => ""
  | t :: ts => "\n" ++ t ++ newlineJoinCont ts

theorem newlineJoin_cons :
    ∀ (t : String) (ts : List String), newlineJoin (t :: ts) = t ++ newlineJoinCont ts
  | t, [] => (strAppend_right_empty t).symm
  | t, t' :: ts => by
      rw [newlineJoin, newlineJoin_cons t' ts, newlineJoinCont]
      simp [strAppend_assoc]

theorem foldl_sysStep_cont :
    ∀ (ts : List String) (a : String), a ≠ "" →
      ts.foldl Anthropic.sysStep a = a ++ newlineJoinCont ts
  | [], a, _ => (strAppend_right_empty a).symm
  | t :: ts, a, ha => by
      rw [List.foldl_cons,
        show Anthropic.sysStep a t = a ++ "\n" ++ t by rw [Anthropic.sysStep, if_pos ha],
        foldl_sysStep_cont ts (a ++ "\n" ++ t) (strAppend_newline_ne a t), newlineJoinCont]
      simp [strAppend_assoc]

theorem foldl_sysStep_join :
    ∀ (ts : List String), (∀ t ∈ ts, t ≠ "") → ts.foldl Anthropic.sysStep "" = newlineJoin ts
  | [], _ => rfl
  | t :: ts, h => by
      rw [List.foldl_cons,
        show Anthropic.sysStep "" t = t by rw [Anthropic.sysStep]; simp [strEmpty_append],
        foldl_sysStep_cont ts t (h t (by simp)), newlineJoin_cons]

theorem sysFoldMsg_eq (blocks : List ContentBlock) (acc : String) :
    Anthropic.sysFoldMsg acc blocks =
      ((blocks.filter fun b => b.type = ContentTypeText).map fun b => b.text).foldl
        Anthropic.sysStep acc := by
  induction blocks generalizing acc with
  | nil => rfl
  | cons b bs ih =>
      rw [Anthropic.sysFoldMsg, List.foldl_cons]
      by_cases hb : b.type = ContentTypeText
      · rw [if_pos hb, List.filter_cons_of_pos (by simp [hb]), List.map_cons, List.foldl_cons,
          ← Anthropic.sysFoldMsg, ih]
      · rw [if_neg hb, List.filter_cons_of_neg (by simp [hb]), ← Anthropic.sysFoldMsg, ih]

theorem transformMessagesGo_sys (msgs : List Message) (acc : String) :
    (Anthropic.transformMessagesGo msgs acc).2 = (systemTexts msgs).foldl Anthropic.sysStep acc := by
  induction msgs generalizing acc with
  | nil => rfl
  | cons msg rest ih =>
      rw [Anthropic.transformMessagesGo]
      by_cases h : msg.role = RoleSystem
      · rw [if_pos h, ih, systemTexts_cons_sys msg rest h, List.foldl_append, ← sysFoldMsg_eq]
      · rw [if_neg h]
        show (Anthropic.transformMessagesGo rest acc).2 = _
        rw [ih, systemTexts_cons_other msg rest h]

/-- The parts of the last system message that has at least one text block. -/
def lastSysParts : List Message → Option (List Google.GPart)
  | [] => none
  | msg :: rest =>
    if msg.role = RoleSystem ∧ (Google.sysParts msg.content).length > 0 then
      match lastSysParts rest with
      | some ps => some ps
      | none => some (Google.sysParts msg.content)
    else lastSysParts rest

theorem google_sys_last (msgs : List Message) (sys : Option Google.GContent) :
    (Google.transformMessagesGo msgs sys).2 =
      match lastSysParts msgs with
      | some ps => some { parts := ps }
      | none => sys := by
  induction msgs generalizing sys with
  | nil => rfl
  | cons msg rest ih =>
      rw [Google.transformMessagesGo, lastSysParts]
      by_cases h : msg.role = RoleSystem
      · rw [if_pos h]
        by_cases hp : (Google.sysParts msg.content).length > 0
        · rw [if_pos hp,
            if_pos (show msg.role = RoleSystem ∧ (Google.sysParts msg.content).length > 0 from
              ⟨h, hp⟩), ih]
          cases lastSysParts rest <;> rfl
        · rw [if_neg hp,
            if_neg (show ¬ (msg.role = RoleSystem ∧ (Google.sysParts msg.content).length > 0) from
              fun hc => hp hc.2), ih]
      · rw [if_neg h, if_neg (by simp [h])]
        show (Google.transformMessagesGo rest sys).2 = _
        rw [ih]

/-- Counterexample to C5 as stated: with two system messages, the Google
transformer's systemInstruction holds only the texts of the last one ("Line
2"); the first message's text is dropped, not newline-concatenated (the
Anthropic transformer does concatenate). -/
theorem c5_counterexample :
    (Anthropic.transformMessages
        [NewTextMessage RoleSystem "Line 1", NewTextMessage RoleSystem "Line 2",
         NewTextMessage RoleUser "Hello"]).2 = "Line 1\nLine 2"
    ∧ (Google.transformMessages
        [NewTextMessage RoleSystem "Line 1", NewTextMessage RoleSystem "Line 2",
         NewTextMessage RoleUser "Hello"]).2 = some { parts := [{ text := "Line 2" }] }
    ∧ (([{ text := "Line 2" }] : List Google.GPart).all fun p => p.text ≠ "Line 1") = true := by
  refine ⟨by decide, by decide, by decide⟩

/-- C5 (amended): the Anthropic transformer concatenates the texts of all
system messages with newline separators, preserving order (stated for
non-empty texts, where the leading-separator edge case cannot arise); the
Google transformer sets systemInstruction to the text parts of the last
system message that has at least one text block, dropping earlier system
messages. -/
theorem c5_amended_system_channel :
    (∀ (messages : List Message), (∀ t ∈ systemTexts messages, t ≠ "") →
        (Anthropic.transformMessages messages).2 = newlineJoin (systemTexts messages))
    ∧ (∀ (messages : List Message),
        (Google.transformMessages messages).2 =
          match lastSysParts messages with
          | some ps => some { parts := ps }
          | none => none) := by
  constructor
  · intro messages h
    rw [Anthropic.transformMessages, transformMessagesGo_sys, foldl_sysStep_join _ h]
  · intro messages
    exact google_sys_last messages none

/-- Witness for C5 (amended) at the two-system-message example. -/
theorem c5_witness :
    (Anthropic.transformMessages
        [NewTextMessage RoleSystem "Line 1", NewTextMessage RoleSystem "Line 2",
         NewTextMessage RoleUser "Hello"]).2 =
      newlineJoin (systemTexts
        [NewTextMessage RoleSystem "Line 1", NewTextMessage RoleSystem "Line 2",
         NewTextMessage RoleUser "Hello"])
    ∧ (Google.transformMessages
        [NewTextMessage RoleSystem "Line 1", NewTextMessage RoleSystem "Line 2",
         NewTextMessage RoleUser "Hello"]).2 =
      match lastSysParts
        [NewTextMessage RoleSystem "Line 1", NewTextMessage RoleSystem "Line 2",
         NewTextMessage RoleUser "Hello"] with
      | some ps => some { parts := ps }
      | none => none := by
  exact ⟨c5_amended_system_channel.1 _ (by decide), c5_amended_system_channel.2 _⟩

/-! ## Unified stream events (types/response.go). -/

def StreamEventStart : String := "start"

def StreamEventContentDelta : String := "content_delta"

def StreamEventToolCallStart : String := "tool_call_start"

def StreamEventToolCallDelta : String := "tool_call_delta"

def StreamEventToolCallEnd : String := "tool_call_end"

def StreamEventDone : String := "done"

def StreamEventError : String := "error"

/-- `types.StreamEvent` (`Error error` is `Option RouterError`). -/
structure StreamEvent where
  type : String := ""
  delta : Option ContentBlock := none
  index : Int := 0
  toolCall : Option ToolCall := none
  toolInputDelta : String := ""
  error : Option RouterError := none
  usage : Option Usage := none
  stopReason : String := ""
  responseID : String := ""
  model : String := ""
  deriving DecidableEq

/-- The outcome of one `Next` call: one event, or the "stream complete"
`(nil, nil)` return.  Read errors of the underlying HTTP body are below the
level of this embedding (transcripts are already split into frames). -/
inductive NextRes where
  | event (e : StreamEvent)
  | complete
  deriving DecidableEq

/-! ## Anthropic streaming reader (transform_test.go part, lines 700-939):
typed SSE (`event:` + `data:` pairs).  Transcripts are lists of decoded wire
events; payload unmarshalling is assumed to succeed (a frame that fails to
decode is skipped by the Go code and would simply be absent here). -/

namespace Anthropic

/-- anthropic wire `Delta`. -/
structure WireDelta where
  type : String := ""
  text : String := ""
  partialJson : String := ""
  stopReason : String := ""
  stopSequence : String := ""
  deriving DecidableEq

/-- anthropic wire `Usage`. -/
structure WireUsage where
  inputTokens : Int := 0
  outputTokens : Int := 0
  cacheCreationInputTokens : Int := 0
  cacheReadInputTokens : Int := 0
  deriving DecidableEq

/-- anthropic `MessagesResponse`. -/
structure MessagesResponse where
  id : String := ""
  type : String := ""
  role : String := ""
  content : List WireBlock := []
  model : String := ""
  stopReason : String := ""
  stopSequence : String := ""
  usage : WireUsage := {}
  deriving DecidableEq

/-- anthropic `Transformer.transformStopReason`. -/
def transformStopReason (reason : String) : String :=
  if reason = "end_turn" then StopReasonEnd
  else if reason = "max_tokens" then StopReasonMaxTokens
  else if reason = "tool_use" then StopReasonToolUse
  else if reason = "stop_sequence" then StopReasonStopSequence
  else StopReasonEnd

/-- anthropic `Transformer.transformResponseContent`. -/
def transformResponseContent (blocks : List WireBlock) : List ContentBlock :=
  blocks.foldr
    (fun block acc =>
      if block.type = "text" then
        { type := ContentTypeText, text := block.text } :: acc
      else if block.type = "tool_use" then
        { type := ContentTypeToolUse, toolUseID := block.id, toolName := block.name,
          toolInput := block.input } :: acc
      else acc)
    []

/-- anthropic `Transformer.extractToolCalls`. -/
def extractToolCalls (blocks : List WireBlock) : List ToolCall :=
  blocks.foldr
    (fun block acc =>
      if block.type = "tool_use" then
        ({ id := block.id, name := block.name, input := block.input } : ToolCall) :: acc
      else acc)
    []

/-- anthropic `Transformer.TransformResponse` (the nil-pointer guard is below
this embedding; `CreatedAt` omitted). -/
def transformResponse (resp : MessagesResponse) : CompletionResponse :=
  { id := resp.id,
    provider := ProviderAnthropic,
    model := resp.model,
    content := transformResponseContent resp.content,
    stopReason := transformStopReason resp.stopReason,
    toolCalls := extractToolCalls resp.content,
    usage :=
      { inputTokens := resp.usage.inputTokens,
        outputTokens := resp.usage.outputTokens,
        totalTokens := resp.usage.inputTokens + resp.usage.outputTokens,
        cachedTokens := resp.usage.cacheReadInputTokens } }

/-- One decoded `event:`/`data:` pair of the typed-SSE framing.  Indices are
`Nat` (the wire delivers non-negative block indices). -/
inductive WireEvent where
  | messageStart (message : MessagesResponse)
  | contentBlockStart (index : Nat) (contentBlock : WireBlock)
  | contentBlockDelta (index : Nat) (delta : WireDelta)
  | contentBlockStop (index : Nat)
  | messageDelta (delta : WireDelta) (usage : WireUsage)
  | messageStop
  | errorEvent (error : APIError)
  deriving DecidableEq

/-- anthropic `streamReader` accumulation state. -/
structure StreamState where
  done : Bool := false
  id : String := ""
  model : String := ""
  contentBlocks : List ContentBlock := []
  currentBlock : Nat := 0
  toolCalls : List ToolCall := []
  usage : Option Usage := none
  stopReason : String := ""
  response : Option CompletionResponse := none
  deriving DecidableEq

/-- `for len(s.contentBlocks) <= event.Index { append(s.contentBlocks, {}) }`:
pad with empty blocks up to length `idx + 1`. -/
def padTo (blocks : List ContentBlock) (idx : Nat) : List ContentBlock :=
  blocks ++ List.replicate (idx + 1 - blocks.length) ({} : ContentBlock)

/-- `s.contentBlocks[idx].Text += t` guarded by `idx < len(s.contentBlocks)`. -/
def appendTextAt (blocks : List ContentBlock) (idx : Nat) (t : String) : List ContentBlock :=
  match blocks[idx]? with
  | some b => blocks.set idx { b with text := b.text ++ t }
  | none => blocks

/-- anthropic `streamReader.processEvent`: next state, emitted event (if
any), and the stream-finished flag. -/
def processEvent (s : StreamState) (e : WireEvent) :
    StreamState × Option StreamEvent × Bool :=
  match e with
  | .messageStart msg =>
    ({ s with id := msg.id, model := msg.model },
      some { type := StreamEventStart, responseID := msg.id, model := msg.model }, false)
  | .contentBlockStart idx cb =>
    let padded := padTo s.contentBlocks idx
    if cb.type = "tool_use" then
      let blocks := padded.set idx
        { type := ContentTypeToolUse, toolUseID := cb.id, toolName := cb.name }
      ({ s with currentBlock := idx, contentBlocks := blocks },
        some { type := StreamEventToolCallStart,
               toolCall := some { id := cb.id, name := cb.name } }, false)
    else
      let blocks := padded.set idx { type := ContentTypeText }
      ({ s with currentBlock := idx, contentBlocks := blocks }, none, false)
  | .contentBlockDelta idx delta =>
    if delta.text ≠ "" then
      ({ s with contentBlocks := appendTextAt s.contentBlocks idx delta.text },
        some { type := StreamEventContentDelta,
               delta := some { type := ContentTypeText, text := delta.text },
               index := (idx : Int) }, false)
    else if delta.partialJson ≠ "" then
      -- NOTE: faithful to the source — the partial_json fragment is emitted
      -- but never accumulated into the block's ToolInput.
      (s, some { type := StreamEventToolCallDelta, toolInputDelta := delta.partialJson,
                 index := (idx : Int) }, false)
    else (s, none, false)
  | .contentBlockStop idx =>
    match s.contentBlocks[idx]? with
    | some b =>
      if b.type = ContentTypeToolUse then
        ({ s with toolCalls := s.toolCalls ++
            [{ id := b.toolUseID, name := b.toolName, input := b.toolInput }] },
          some { type := StreamEventToolCallEnd,
                 toolCall := some { id := b.toolUseID, name := b.toolName, input := b.toolInput } },
          false)
      else (s, none, false)
    | none => (s, none, false)
  | .messageDelta delta usage =>
    let s1 := { s with stopReason := transformStopReason delta.stopReason }
    (if usage.outputTokens > 0 then
       { s1 with usage := some { outputTokens := usage.outputTokens } }
     else s1, none, false)
  | .messageStop =>
    (s, some { type := StreamEventDone, usage := s.usage, stopReason := s.stopReason,
               responseID := s.id }, true)
  | .errorEvent err =>
    (s, some { type := StreamEventError,
               error := some (ErrServerError ProviderAnthropic err.message) }, true)

/-- anthropic `streamReader.buildResponse`. -/
def buildResponse (s : StreamState) : CompletionResponse :=
  { id := s.id,
    provider := ProviderAnthropic,
    model := s.model,
    content := s.contentBlocks,
    stopReason := s.stopReason,
    toolCalls := s.toolCalls,
    usage := match s.usage with | some u => u | none => {} }

/-- anthropic `streamReader.Next` over the remaining transcript: loop until an
event is produced, the stream finishes (`message_stop` / `error`), or the
input ends (EOF). -/
def next (s : StreamState) (input : List WireEvent) :
    StreamState × List WireEvent × NextRes :=
  if s.done then (s, input, .complete)
  else
    match input with
    | [] => ({ s with done := true, response := some (buildResponse s) }, [], .complete)
    | e :: rest =>
      let r := processEvent s e
      let s' :=
        if r.2.2 then { r.1 with done := true, response := some (buildResponse r.1) } else r.1
      match r.2.1 with
      | some ev => (s', rest, .event ev)
      | none => next s' rest

/-- Repeated `Next` calls: the list of all emitted events and the final
reader state.  `fuel` only bounds the number of calls; `input.length + 1`
always suffices. -/
def drive : Nat → StreamState → List WireEvent → List StreamEvent × StreamState
  | 0, s, _ => ([], s)
  | fuel + 1, s, input =>
    match next s input with
    | (s', input', .event e) =>
      let r := drive fuel s' input'
      (e :: r.1, r.2)
    | (s', _, .complete) => ([], s')

end Anthropic

/-- Concatenation, in order, of the ToolInputDelta fragments of a stream's
ToolCallDelta events. -/
def concatToolDeltas (events : List StreamEvent) : String :=
  (events.filter fun e => e.type = StreamEventToolCallDelta).foldl
    (fun acc e => acc ++ e.toolInputDelta) ""

/-- An Anthropic stream transcript: message_start carries the input-token
usage (10), message_delta carries the output tokens (5). -/
def c1Transcript : List Anthropic.WireEvent :=
  [.messageStart { id := "msg_1", model := "claude-3", usage := { inputTokens := 10 } },
   .contentBlockStart 0 { type := "text" },
   .contentBlockDelta 0 { type := "text_delta", text := "Hi" },
   .contentBlockStop 0,
   .messageDelta { type := "message_delta", stopReason := "end_turn" } { outputTokens := 5 },
   .messageStop]

/-- The non-streaming body carrying the same content and usage. -/
def c1NonStreamBody : Anthropic.MessagesResponse :=
  { id := "msg_1", model := "claude-3",
    content := [{ type := "text", text := "Hi" }],
    stopReason := "end_turn",
    usage := { inputTokens := 10, outputTokens := 5 } }

/-- C1 fails on the code (Anthropic): for the same content, the streaming
reader's Response() reports usage (input 0, output 5, total 0) while the
non-streaming response transformer reports (10, 5, 15) — the reader never
captures message_start's input tokens and never computes a total.  Content
and stop reason do agree. -/
theorem c1_anthropic_stream_response_loses_usage :
    ((Anthropic.drive 10 {} c1Transcript).2.response.map fun r => r.content)
        = some (Anthropic.transformResponse c1NonStreamBody).content
    ∧ ((Anthropic.drive 10 {} c1Transcript).2.response.map fun r => r.stopReason)
        = some (Anthropic.transformResponse c1NonStreamBody).stopReason
    ∧ ((Anthropic.drive 10 {} c1Transcript).2.response.map fun r => r.usage)
        = some { outputTokens := 5 }
    ∧ (Anthropic.transformResponse c1NonStreamBody).usage
        = { inputTokens := 10, outputTokens := 5, totalTokens := 15 }
    ∧ ((Anthropic.drive 10 {} c1Transcript).2.response.map fun r => r.usage)
        ≠ some (Anthropic.transformResponse c1NonStreamBody).usage := by
  refine ⟨by decide, by decide, by decide, by decide, by decide⟩

/-- An Anthropic stream transcript with a tool call whose arguments arrive as
two partial-JSON fragments. -/
def c3Transcript : List Anthropic.WireEvent :=
  [.messageStart { id := "msg_2", model := "claude-3" },
   .contentBlockStart 0 { type := "tool_use", id := "toolu_1", name := "get_weather" },
   .contentBlockDelta 0 { type := "input_json_delta", partialJson := "\x7b\"location\"" },
   .contentBlockDelta 0 { type := "input_json_delta", partialJson := ":\"Paris\"\x7d" },
   .contentBlockStop 0,
   .messageDelta { type := "message_delta", stopReason := "tool_use" } { outputTokens := 3 },
   .messageStop]

/-- C3 fails on the code (Anthropic): the ToolCallDelta fragments concatenate
to a JSON object, but the reader never accumulates partial_json into the
block state, so the tool call's Input in Response() stays nil instead of the
parsed object. -/
theorem c3_anthropic_tool_input_stays_nil :
    concatToolDeltas (Anthropic.drive 10 {} c3Transcript).1 = "\x7b\"location\":\"Paris\"\x7d"
    ∧ jsonParse "\x7b\"location\":\"Paris\"\x7d"
        = some (.obj (.cons "location" (.str "Paris") .nil))
    ∧ ((Anthropic.drive 10 {} c3Transcript).2.response.map fun r => r.toolCalls)
        = some [{ id := "toolu_1", name := "get_weather", input := none }]
    ∧ some (Json.obj (.cons "location" (.str "Paris") .nil)) ≠ (none : Option Json) := by
  refine ⟨by decide, by decide, by decide, by decide⟩

/-! ## OpenAI streaming reader (part_005): SSE `data:` lines.  A transcript is
the list of decoded lines: a chunk, the `[DONE]` sentinel, or a skipped line
(blank / non-`data:` / undecodable). -/

namespace OpenAI

/-- openai `FunctionCall`. -/
structure FunctionCall where
  name : String := ""
  arguments : String := ""
  deriving DecidableEq

/-- openai wire `ToolCall` (streaming form carries an optional index). -/
structure WireToolCall where
  id : String := ""
  type : String := ""
  function : FunctionCall := {}
  index : Option Int := none
  deriving DecidableEq

/-- openai wire `Usage` (the reader reads only the three counts). -/
structure WireUsage where
  promptTokens : Int := 0
  completionTokens : Int := 0
  totalTokens : Int := 0
  deriving DecidableEq

/-- openai `MessageDelta`. -/
structure MessageDelta where
  role : String := ""
  content : String := ""
  toolCalls : List WireToolCall := []
  deriving DecidableEq

/-- openai `StreamChoice`. -/
structure StreamChoice where
  index : Int := 0
  delta : MessageDelta := {}
  finishReason : String := ""
  deriving DecidableEq

/-- openai `StreamChunk`. -/
structure StreamChunk where
  id : String := ""
  model : String := ""
  choices : List StreamChoice := []
  usage : Option WireUsage := none
  deriving DecidableEq

/-- One line of the SSE body after framing: a decoded data chunk, the
`data: [DONE]` sentinel, or any skipped line. -/
inductive WireLine where
  | data (chunk : StreamChunk)
  | doneMark
  | junk
  deriving DecidableEq

/-- openai `Transformer.transformStopReason`. -/
def transformStopReason (reason : String) : String :=
  if reason = "stop" then StopReasonEnd
  else if reason = "length" then StopReasonMaxTokens
  else if reason = "tool_calls" then StopReasonToolUse
  else if reason = "content_filter" then StopReasonContentFilter
  else StopReasonEnd

/-- Go `map[int]` read. -/
def lookupIdx {α : Type} : List (Int × α) → Int → Option α
  | [], _ => none
  | (k, v) :: tl, i => if i = k then some v else lookupIdx tl i

/-- Go `map[int]` write (replace in place, else append; the reader only ever
iterates this map, whose Go iteration order is unspecified — insertion order
is the order used here). -/
def setIdx {α : Type} : List (Int × α) → Int → α → List (Int × α)
  | [], i, v => [(i, v)]
  | (k, w) :: tl, i, v => if i = k then (k, v) :: tl else (k, w) :: setIdx tl i v

/-- openai `streamReader` accumulation state.  `content` is the
`strings.Builder`; `toolCalls` / `toolInputs` are the per-index maps. -/
structure StreamState where
  done : Bool := false
  id : String := ""
  model : String := ""
  content : String := ""
  toolCalls : List (Int × ToolCall) := []
  toolInputs : List (Int × String) := []
  usage : Option Usage := none
  stopReason : String := ""
  response : Option CompletionResponse := none
  deriving DecidableEq

/-- The `for _, tc := range delta.ToolCalls` loop of
`streamReader.processChunk`: returns on the first entry that starts a tool
call or carries an arguments fragment.  Note the source drops an arguments
fragment arriving on the same entry as the id. -/
def processToolCalls (s : StreamState) : List WireToolCall → StreamState × Option StreamEvent
  | [] => (s, none)
  | tc :: rest =>
    let idx := match tc.index with | some i => i | none => 0
    if tc.id ≠ "" then
      ({ s with toolCalls := setIdx s.toolCalls idx { id := tc.id, name := tc.function.name },
                toolInputs := setIdx s.toolInputs idx "" },
        some { type := StreamEventToolCallStart,
               toolCall := some { id := tc.id, name := tc.function.name } })
    else if tc.function.arguments ≠ "" then
      (match lookupIdx s.toolInputs idx with
       | some acc => { s with toolInputs := setIdx s.toolInputs idx (acc ++ tc.function.arguments) }
       | none => s,
        some { type := StreamEventToolCallDelta, toolInputDelta := tc.function.arguments,
               index := idx })
    else processToolCalls s rest

/-- openai `streamReader.processChunk`. -/
def processChunk (s : StreamState) (chunk : StreamChunk) : StreamState × Option StreamEvent :=
  let s1 := if s.id = "" then { s with id := chunk.id } else s
  let s2 := if s1.model = "" then { s1 with model := chunk.model } else s1
  let s3 :=
    match chunk.usage with
    | some u =>
      let uu : Usage :=
        { inputTokens := u.promptTokens,
          outputTokens := u.completionTokens,
          totalTokens := u.totalTokens }
      { s2 with usage := some uu }
    | none => s2
  match chunk.choices with
  | [] => (s3, none)
  | choice :: _ =>
    let s4 :=
      if choice.finishReason ≠ "" then
        { s3 with stopReason := transformStopReason choice.finishReason }
      else s3
    if choice.delta.content ≠ "" then
      ({ s4 with content := s4.content ++ choice.delta.content },
        some { type := StreamEventContentDelta,
               delta := some { type := ContentTypeText, text := choice.delta.content },
               index := 0 })
    else
      processToolCalls s4 choice.delta.toolCalls

/-- openai `streamReader.buildResponse`: text block first (if any), then one
tool_use block per accumulated tool call, its input parsed from the
accumulated arguments (`json.Unmarshal` into `any`: a failed parse, and a
parsed `null`, leave the input nil). -/
def buildResponse (s : StreamState) : CompletionResponse :=
  let start : List ContentBlock × List ToolCall :=
    (if s.content ≠ "" then [{ type := ContentTypeText, text := s.content }] else [], [])
  let r := s.toolCalls.foldl
    (fun acc p =>
      let input : Option Json :=
        match lookupIdx s.toolInputs p.1 with
        | some args =>
          match jsonParse args with
          | some .null => none
          | v => v
        | none => p.2.input
      let tc : ToolCall := { p.2 with input := input }
      (acc.1 ++ [{ type := ContentTypeToolUse, toolUseID := tc.id, toolName := tc.name,
                   toolInput := tc.input }],
       acc.2 ++ [tc]))
    start
  { id := s.id,
    provider := ProviderOpenAI,
    model := s.model,
    content := r.1,
    stopReason := s.stopReason,
    toolCalls := r.2,
    usage := match s.usage with | some u => u | none => {} }

/-- openai `streamReader.Next` over the remaining transcript. -/
def next (s : StreamState) (input : List WireLine) :
    StreamState × List WireLine × NextRes :=
  if s.done then (s, input, .complete)
  else
    match input with
    | [] => ({ s with done := true, response := some (buildResponse s) }, [], .complete)
    | .junk :: rest => next s rest
    | .doneMark :: rest =>
      ({ s with done := true, response := some (buildResponse s) }, rest,
        .event { type := StreamEventDone, usage := s.usage, stopReason := s.stopReason,
                 responseID := s.id })
    | .data c :: rest =>
      match processChunk s c with
      | (s', some ev) => (s', rest, .event ev)
      | (s', none) => next s' rest

end OpenAI

/-! ## Google streaming reader (translator.go part, lines 585-767): a JSON
array of chunks.  The wire is `none` for an empty body (EOF before any
token) and `some chunks` for `[` followed by the array elements. -/

namespace Google

/-- google `UsageMetadata`. -/
structure GUsageMetadata where
  promptTokenCount : Int := 0
  candidatesTokenCount : Int := 0
  totalTokenCount : Int := 0
  deriving DecidableEq

/-- google `Candidate`. -/
structure GCandidate where
  content : Option GContent := none
  finishReason : String := ""
  index : Int := 0
  deriving DecidableEq

/-- google `StreamChunk`. -/
structure StreamChunk where
  candidates : List GCandidate := []
  usageMetadata : Option GUsageMetadata := none
  deriving DecidableEq

/-- google `Transformer.transformStopReason`. -/
def transformStopReason (reason : String) : String :=
  if reason = "STOP" then StopReasonEnd
  else if reason = "MAX_TOKENS" then StopReasonMaxTokens
  else if reason = "SAFETY" then StopReasonContentFilter
  else if reason = "RECITATION" then StopReasonContentFilter
  else if reason = "OTHER" then StopReasonEnd
  else StopReasonEnd

/-- google `streamReader` accumulation state. -/
structure StreamState where
  done : Bool := false
  started : Bool := false
  arrayStarted : Bool := false
  model : String := ""
  content : List ContentBlock := []
  toolCalls : List ToolCall := []
  usage : Option Usage := none
  stopReason : String := ""
  response : Option CompletionResponse := none
  deriving DecidableEq

/-- The `for _, part := range candidate.Content.Parts` walk of
`streamReader.processChunk`: text parts coalesce with a trailing text block;
function-call parts arrive with fully parsed arguments. -/
def processParts (s : StreamState) : List GPart → StreamState × Option StreamEvent
  | [] => (s, none)
  | part :: rest =>
    if part.text ≠ "" then
      let content' :=
        match s.content.getLast? with
        | some lastB =>
          if lastB.type ≠ ContentTypeText then
            s.content ++ [{ type := ContentTypeText, text := part.text }]
          else
            s.content.dropLast ++ [{ lastB with text := lastB.text ++ part.text }]
        | none => s.content ++ [{ type := ContentTypeText, text := part.text }]
      ({ s with content := content' },
        some { type := StreamEventContentDelta,
               delta := some { type := ContentTypeText, text := part.text } })
    else
      match part.functionCall with
      | some fc =>
        let input : Option Json := (fc.args.map Json.obj)
        let tc : ToolCall := { name := fc.name, input := input }
        ({ s with toolCalls := s.toolCalls ++ [tc],
                  content := s.content ++
                    [{ type := ContentTypeToolUse, toolName := fc.name, toolInput := input }] },
          some { type := StreamEventToolCallStart, toolCall := some tc })
      | none => processParts s rest

/-- google `streamReader.processChunk`. -/
def processChunk (s : StreamState) (chunk : StreamChunk) : StreamState × Option StreamEvent :=
  match chunk.candidates with
  | [] => (s, none)
  | candidate :: _ =>
    let s1 :=
      if candidate.finishReason ≠ "" then
        { s with stopReason := transformStopReason candidate.finishReason }
      else s
    let s2 :=
      match chunk.usageMetadata with
      | some u =>
        let uu : Usage :=
          { inputTokens := u.promptTokenCount,
            outputTokens := u.candidatesTokenCount,
            totalTokens := u.totalTokenCount }
        { s1 with usage := some uu }
      | none => s1
    match candidate.content with
    | none => (s2, none)
    | some content => processParts s2 content.parts

/-- google `streamReader.buildResponse` (the response id is never set). -/
def buildResponse (s : StreamState) : CompletionResponse :=
  { provider := ProviderGoogle,
    model := s.model,
    content := s.content,
    stopReason := s.stopReason,
    toolCalls := s.toolCalls,
    usage := match s.usage with | some u => u | none => {} }

/-- The `for s.decoder.More()` element loop: decode successive chunks until
one yields an event or the array ends (then finalize with a Done event). -/
def loop (s : StreamState) : List StreamChunk → StreamState × List StreamChunk × NextRes
  | [] =>
    ({ s with done := true, response := some (buildResponse s) }, [],
      .event { type := StreamEventDone, usage := s.usage, stopReason := s.stopReason })
  | c :: rest =>
    match processChunk s c with
    | (s', some ev) => (s', rest, .event ev)
    | (s', none) => loop s' rest

/-- google `streamReader.Next`: a synthetic Start event first, then the array
elements; EOF before any token also finalizes with a Done event. -/
def next (s : StreamState) (input : Option (List StreamChunk)) :
    StreamState × Option (List StreamChunk) × NextRes :=
  if s.done then (s, input, .complete)
  else if !s.started then
    ({ s with started := true }, input,
      .event { type := StreamEventStart, model := s.model })
  else
    match input with
    | none =>
      ({ s with done := true, response := some (buildResponse s) }, none,
        .event { type := StreamEventDone, usage := s.usage, stopReason := s.stopReason })
    | some chunks =>
      let s1 := if !s.arrayStarted then { s with arrayStarted := true } else s
      let r := loop s1 chunks
      (r.1, some r.2.1, r.2.2)

end Google

/-! Event-shape lemmas for the readers. -/

theorem oaiProcessToolCalls_types :
    ∀ (l : List OpenAI.WireToolCall) (s : OpenAI.StreamState) (e : StreamEvent),
      (OpenAI.processToolCalls s l).2 = some e →
        e.type = StreamEventToolCallStart ∨ e.type = StreamEventToolCallDelta := by
  intro l
  induction l with
  | nil => intro s e h; simp [OpenAI.processToolCalls] at h
  | cons tc rest ih =>
      intro s e h
      rw [OpenAI.processToolCalls] at h
      split_ifs at h with h1 h2
      · simp at h; rw [← h]; left; rfl
      · simp at h; rw [← h]; right; rfl
      · exact ih _ _ h

theorem oaiProcessChunk_types :
    ∀ (s : OpenAI.StreamState) (c : OpenAI.StreamChunk) (e : StreamEvent),
      (OpenAI.processChunk s c).2 = some e →
        e.type = StreamEventContentDelta ∨ e.type = StreamEventToolCallStart
          ∨ e.type = StreamEventToolCallDelta := by
  intro s c e h
  rw [OpenAI.processChunk] at h
  rcases hch : c.choices with _ | ⟨choice, tl⟩ <;> rw [hch] at h
  · simp at h
  · simp only [] at h
    by_cases h1 : choice.delta.content ≠ ""
    · rw [if_pos h1] at h
      simp at h; rw [← h]; left; rfl
    · rw [if_neg h1] at h
      rcases oaiProcessToolCalls_types _ _ _ h with h' | h'
      · right; left; exact h'
      · right; right; exact h'

theorem oaiNext_nil (s : OpenAI.StreamState) :
    OpenAI.next s [] =
      if s.done then (s, [], .complete)
      else ({ s with done := true, response := some (OpenAI.buildResponse s) }, [], .complete) :=
  rfl

theorem oaiNext_junk (s : OpenAI.StreamState) (rest : List OpenAI.WireLine) :
    OpenAI.next s (.junk :: rest) =
      if s.done then (s, .junk :: rest, .complete) else OpenAI.next s rest :=
  rfl

theorem oaiNext_doneMark (s : OpenAI.StreamState) (rest : List OpenAI.WireLine) :
    OpenAI.next s (.doneMark :: rest) =
      if s.done then (s, .doneMark :: rest, .complete)
      else ({ s with done := true, response := some (OpenAI.buildResponse s) }, rest,
        .event { type := StreamEventDone, usage := s.usage, stopReason := s.stopReason,
                 responseID := s.id }) :=
  rfl

theorem oaiNext_data (s : OpenAI.StreamState) (c : OpenAI.StreamChunk)
    (rest : List OpenAI.WireLine) :
    OpenAI.next s (.data c :: rest) =
      if s.done then (s, .data c :: rest, .complete)
      else
        match OpenAI.processChunk s c with
        | (s', some ev) => (s', rest, .event ev)
        | (s', none) => OpenAI.next s' rest :=
  rfl

/-- The OpenAI reader never emits a Start event. -/
theorem oaiNext_no_start :
    ∀ (input : List OpenAI.WireLine) (s s' : OpenAI.StreamState)
      (input' : List OpenAI.WireLine) (e : StreamEvent),
      OpenAI.next s input = (s', input', .event e) → e.type ≠ StreamEventStart := by
  intro input
  induction input with
  | nil =>
      intro s s' input' e h
      rw [oaiNext_nil] at h
      split_ifs at h <;> simp at h
  | cons line rest ih =>
      intro s s' input' e h
      cases line with
      | junk =>
          rw [oaiNext_junk] at h
          split_ifs at h with hdone
          · simp at h
          · exact ih _ _ _ _ h
      | doneMark =>
          rw [oaiNext_doneMark] at h
          split_ifs at h with hdone
          · simp at h
          · simp only [Prod.mk.injEq] at h
            rcases h with ⟨_, _, h3⟩
            cases h3
            show StreamEventDone ≠ StreamEventStart
            decide
      | data c =>
          rw [oaiNext_data] at h
          split_ifs at h with hdone
          · simp at h
          · rcases hc : OpenAI.processChunk s c with ⟨sc, evc⟩
            rw [hc] at h
            cases evc with
            | some ev =>
                simp only [Prod.mk.injEq] at h
                rcases h with ⟨_, _, h3⟩
                have hev : ev = e := by cases h3; rfl
                rcases oaiProcessChunk_types s c ev (by rw [hc]) with ht | ht | ht <;>
                  · rw [← hev, ht]; decide
            | none => exact ih _ _ _ _ h

/-- A minimal OpenAI transcript: one content chunk, then the `[DONE]`
sentinel. -/
def c4Transcript : List OpenAI.WireLine :=
  [.data { id := "chatcmpl-1", model := "gpt-4o",
           choices := [{ delta := { content := "Hi" } }] },
   .doneMark]

/-- Counterexample to C4 as stated: on the OpenAI reader, the first call to
Next on a fresh reader over a well-formed transcript returns a ContentDelta
event — no Start event precedes it (the OpenAI reader has no Start-emitting
path at all). -/
theorem c4_counterexample :
    (OpenAI.next {} c4Transcript).2.2 =
      .event { type := StreamEventContentDelta,
               delta := some { type := ContentTypeText, text := "Hi" }, index := 0 }
    ∧ StreamEventContentDelta ≠ StreamEventStart := by
  exact ⟨by decide, by decide⟩

/-- C4 (amended): the Google reader's first call always returns a synthetic
Start event; the Anthropic reader's first call returns a Start event whenever
the transcript begins with message_start (as Anthropic streams do); the
OpenAI reader never returns a Start event at all. -/
theorem c4_amended_start_event :
    (∀ (m : String) (input : Option (List Google.StreamChunk)),
        Google.next { model := m } input =
          ({ model := m, started := true }, input,
            .event { type := StreamEventStart, model := m }))
    ∧ (∀ (msg : Anthropic.MessagesResponse) (rest : List Anthropic.WireEvent),
        Anthropic.next {} (.messageStart msg :: rest) =
          ({ id := msg.id, model := msg.model }, rest,
            .event { type := StreamEventStart, responseID := msg.id, model := msg.model }))
    ∧ (∀ (input : List OpenAI.WireLine) (s s' : OpenAI.StreamState)
        (input' : List OpenAI.WireLine) (e : StreamEvent),
        OpenAI.next s input = (s', input', .event e) → e.type ≠ StreamEventStart) :=
  ⟨fun _ _ => rfl, fun _ _ => rfl, oaiNext_no_start⟩

/-- Witness for C4 (amended) at concrete inputs. -/
theorem c4_witness :
    Google.next { model := "gemini-2.0-flash" } (some []) =
      ({ model := "gemini-2.0-flash", started := true }, some [],
        .event { type := StreamEventStart, model := "gemini-2.0-flash" })
    ∧ Anthropic.next {} [.messageStart { id := "msg_9", model := "claude-3" }] =
      ({ id := "msg_9", model := "claude-3" }, [],
        .event { type := StreamEventStart, responseID := "msg_9", model := "claude-3" })
    ∧ ({ type := StreamEventContentDelta, delta := some { type := ContentTypeText, text := "Hi" },
         index := 0 } : StreamEvent).type ≠ StreamEventStart := by
  refine ⟨c4_amended_start_event.1 "gemini-2.0-flash" (some []),
    c4_amended_start_event.2.1 { id := "msg_9", model := "claude-3" } [],
    c4_amended_start_event.2.2 c4Transcript {}
      { id := "chatcmpl-1", model := "gpt-4o", content := "Hi" } [.doneMark]
      { type := StreamEventContentDelta, delta := some { type := ContentTypeText, text := "Hi" },
        index := 0 }
      (by decide)⟩

/-! Done-flag lemmas for C8: each reader marks itself done exactly when it
returns its terminal Done event or hits the end of input, and a done reader
answers "stream complete" forever. -/

/-- A terminal `Next` outcome: "stream complete", or a Done event. -/
def terminalRes (r : NextRes) : Prop :=
  r = .complete ∨ ∃ e, r = .event e ∧ e.type = StreamEventDone

theorem anthProcessEvent_done_flag (s : Anthropic.StreamState) (we : Anthropic.WireEvent)
    (ev : StreamEvent) :
    (Anthropic.processEvent s we).2.1 = some ev → ev.type = StreamEventDone →
      (Anthropic.processEvent s we).2.2 = true := by
  cases we with
  | messageStart msg =>
      intro h hty
      simp [Anthropic.processEvent] at h
      subst h
      exact absurd hty (show StreamEventStart ≠ StreamEventDone by decide)
  | contentBlockStart idx cb =>
      intro h hty
      simp only [Anthropic.processEvent] at h
      split_ifs at h with h1
      · simp at h
        subst h
        exact absurd hty (show StreamEventToolCallStart ≠ StreamEventDone by decide)
  | contentBlockDelta idx delta =>
      intro h hty
      simp only [Anthropic.processEvent] at h
      split_ifs at h with h1 h2
      · simp at h
        subst h
        exact absurd hty (show StreamEventContentDelta ≠ StreamEventDone by decide)
      · simp at h
        subst h
        exact absurd hty (show StreamEventToolCallDelta ≠ StreamEventDone by decide)
  | contentBlockStop idx =>
      intro h hty
      simp only [Anthropic.processEvent] at h
      rcases hb : s.contentBlocks[idx]? with _ | b <;> rw [hb] at h
      · simp at h
      · simp only [] at h
        split_ifs at h with h1
        · simp at h
          subst h
          exact absurd hty (show StreamEventToolCallEnd ≠ StreamEventDone by decide)
  | messageDelta delta usage =>
      intro h hty
      simp [Anthropic.processEvent] at h
  | messageStop => intro _ _; rfl
  | errorEvent err => intro _ _; rfl

theorem googleProcessParts_types :
    ∀ (parts : List Google.GPart) (s : Google.StreamState) (e : StreamEvent),
      (Google.processParts s parts).2 = some e →
        e.type = StreamEventContentDelta ∨ e.type = StreamEventToolCallStart := by
  intro parts
  induction parts with
  | nil => intro s e h; simp [Google.processParts] at h
  | cons part rest ih =>
      intro s e h
      rw [Google.processParts] at h
      split_ifs at h with h1
      · simp at h; rw [← h]; left; rfl
      · rcases hfc : part.functionCall with _ | fc <;> rw [hfc] at h
        · exact ih _ _ h
        · simp at h; rw [← h]; right; rfl

theorem googleProcessChunk_types (s : Google.StreamState) (c : Google.StreamChunk)
    (e : StreamEvent) :
    (Google.processChunk s c).2 = some e →
      e.type = StreamEventContentDelta ∨ e.type = StreamEventToolCallStart := by
  intro h
  rw [Google.processChunk] at h
  rcases hcand : c.candidates with _ | ⟨candidate, tl⟩ <;> rw [hcand] at h
  · simp at h
  · simp only [] at h
    rcases hcont : candidate.content with _ | content <;> rw [hcont] at h
    · simp at h
    · exact googleProcessParts_types _ _ _ h

theorem anthNext_nil (s : Anthropic.StreamState) :
    Anthropic.next s [] =
      if s.done then (s, [], .complete)
      else ({ s with done := true, response := some (Anthropic.buildResponse s) }, [], .complete) :=
  rfl

theorem anthNext_cons (s : Anthropic.StreamState) (e : Anthropic.WireEvent)
    (rest : List Anthropic.WireEvent) :
    Anthropic.next s (e :: rest) =
      if s.done then (s, e :: rest, .complete)
      else
        let r := Anthropic.processEvent s e
        let s' :=
          if r.2.2 then { r.1 with done := true, response := some (Anthropic.buildResponse r.1) }
          else r.1
        match r.2.1 with
        | some ev => (s', rest, .event ev)
        | none => Anthropic.next s' rest :=
  rfl

/-- A done reader answers "stream complete" and does not change state:
OpenAI. -/
theorem oaiNext_of_done (s : OpenAI.StreamState) (input : List OpenAI.WireLine)
    (h : s.done = true) : OpenAI.next s input = (s, input, .complete) := by
  cases input with
  | nil => rw [oaiNext_nil, if_pos h]
  | cons line rest =>
      cases line with
      | junk => rw [oaiNext_junk, if_pos h]
      | doneMark => rw [oaiNext_doneMark, if_pos h]
      | data c => rw [oaiNext_data, if_pos h]

/-- A done reader answers "stream complete" and does not change state:
Anthropic. -/
theorem anthNext_of_done (s : Anthropic.StreamState) (input : List Anthropic.WireEvent)
    (h : s.done = true) : Anthropic.next s input = (s, input, .complete) := by
  cases input with
  | nil => rw [anthNext_nil, if_pos h]
  | cons e rest => rw [anthNext_cons, if_pos h]

/-- A done reader answers "stream complete" and does not change state:
Google. -/
theorem googleNext_of_done (s : Google.StreamState)
    (input : Option (List Google.StreamChunk)) (h : s.done = true) :
    Google.next s input = (s, input, .complete) := by
  rw [Google.next.eq_def, if_pos h]

/-- A terminal outcome of the OpenAI reader leaves the done flag set. -/
theorem oaiNext_terminal_done :
    ∀ (input : List OpenAI.WireLine) (s s' : OpenAI.StreamState)
      (input' : List OpenAI.WireLine) (r : NextRes),
      OpenAI.next s input = (s', input', r) → terminalRes r → s'.done = true := by
  intro input
  induction input with
  | nil =>
      intro s s' input' r h _
      rw [oaiNext_nil] at h
      split_ifs at h with hdone
      · cases h; exact hdone
      · cases h; rfl
  | cons line rest ih =>
      intro s s' input' r h hterm
      by_cases hdone : s.done = true
      · rw [oaiNext_of_done s (line :: rest) hdone] at h
        cases h
        exact hdone
      · cases line with
        | junk =>
            rw [oaiNext_junk, if_neg hdone] at h
            exact ih _ _ _ _ h hterm
        | doneMark =>
            rw [oaiNext_doneMark, if_neg hdone] at h
            cases h
            rfl
        | data c =>
            rw [oaiNext_data, if_neg hdone] at h
            rcases hc : OpenAI.processChunk s c with ⟨sc, evc⟩
            rw [hc] at h
            cases evc with
            | some ev =>
                cases h
                rcases hterm with hterm | ⟨e, he, hety⟩
                · exact absurd hterm (by simp)
                · have hev : ev = e := by cases he; rfl
                  rcases oaiProcessChunk_types s c ev (by rw [hc]) with ht | ht | ht <;>
                    · rw [hev, hety] at ht
                      exact absurd ht (by decide)
            | none => exact ih _ _ _ _ h hterm

/-- A terminal outcome of the Anthropic reader leaves the done flag set. -/
theorem anthNext_terminal_done :
    ∀ (input : List Anthropic.WireEvent) (s s' : Anthropic.StreamState)
      (input' : List Anthropic.WireEvent) (r : NextRes),
      Anthropic.next s input = (s', input', r) → terminalRes r → s'.done = true := by
  intro input
  induction input with
  | nil =>
      intro s s' input' r h _
      rw [anthNext_nil] at h
      split_ifs at h with hdone
      · cases h; exact hdone
      · cases h; rfl
  | cons e rest ih =>
      intro s s' input' r h hterm
      by_cases hdone : s.done = true
      · rw [anthNext_of_done s (e :: rest) hdone] at h
        cases h
        exact hdone
      · rw [anthNext_cons, if_neg hdone] at h
        simp only [] at h
        rcases hpe : (Anthropic.processEvent s e).2.1 with _ | ev <;> rw [hpe] at h
        · exact ih _ _ _ _ h hterm
        · cases h
          rcases hterm with hterm | ⟨e', he', hety⟩
          · exact absurd hterm (by simp)
          · have hev : ev = e' := by cases he'; rfl
            have hflag := anthProcessEvent_done_flag s e ev hpe (hev ▸ hety)
            rw [if_pos hflag]

/-- A terminal outcome of the Google loop leaves the done flag set. -/
theorem googleLoop_terminal_done :
    ∀ (chunks : List Google.StreamChunk) (s s' : Google.StreamState)
      (rest : List Google.StreamChunk) (r : NextRes),
      Google.loop s chunks = (s', rest, r) → terminalRes r → s'.done = true := by
  intro chunks
  induction chunks with
  | nil =>
      intro s s' rest r h _
      rw [Google.loop] at h
      cases h
      rfl
  | cons c tl ih =>
      intro s s' rest r h hterm
      rw [Google.loop] at h
      rcases hc : Google.processChunk s c with ⟨sc, evc⟩
      rw [hc] at h
      cases evc with
      | some ev =>
          cases h
          rcases hterm with hterm | ⟨e', he', hety⟩
          · exact absurd hterm (by simp)
          · have hev : ev = e' := by cases he'; rfl
            rcases googleProcessChunk_types s c ev (by rw [hc]) with ht | ht <;>
              · rw [hev, hety] at ht
                exact absurd ht (by decide)
      | none => exact ih _ _ _ _ h hterm

/-- A terminal outcome of the Google reader leaves the done flag set. -/
theorem googleNext_terminal_done (s s' : Google.StreamState)
    (input input' : Option (List Google.StreamChunk)) (r : NextRes) :
    Google.next s input = (s', input', r) → terminalRes r → s'.done = true := by
  intro h hterm
  rw [Google.next.eq_def] at h
  by_cases hdone : s.done = true
  · rw [if_pos hdone] at h; cases h; exact hdone
  · rw [if_neg hdone] at h
    by_cases hstart : (!s.started) = true
    · rw [if_pos hstart] at h
      cases h
      rcases hterm with hterm | ⟨e', he', hety⟩
      · exact absurd hterm (by simp)
      · have hc : StreamEventStart = StreamEventDone := by cases he'; exact hety
        exact absurd hc (by decide)
    · rw [if_neg hstart] at h
      cases input with
      | none => cases h; rfl
      | some chunks =>
          simp only [] at h
          rcases hl : Google.loop
              (if !s.arrayStarted then { s with arrayStarted := true } else s) chunks
            with ⟨sl, restl, rl⟩
          rw [hl] at h
          cases h
          exact googleLoop_terminal_done chunks _ _ _ _ hl hterm

/-- The result of the (k+1)-th subsequent `Next` call: OpenAI. -/
def OpenAI.callN : Nat → OpenAI.StreamState → List OpenAI.WireLine → NextRes
  | 0, s, input => (OpenAI.next s input).2.2
  | k + 1, s, input => OpenAI.callN k (OpenAI.next s input).1 (OpenAI.next s input).2.1

/-- The result of the (k+1)-th subsequent `Next` call: Anthropic. -/
def Anthropic.callN : Nat → Anthropic.StreamState → List Anthropic.WireEvent → NextRes
  | 0, s, input => (Anthropic.next s input).2.2
  | k + 1, s, input => Anthropic.callN k (Anthropic.next s input).1 (Anthropic.next s input).2.1

/-- The result of the (k+1)-th subsequent `Next` call: Google. -/
def Google.callN : Nat → Google.StreamState → Option (List Google.StreamChunk) → NextRes
  | 0, s, input => (Google.next s input).2.2
  | k + 1, s, input => Google.callN k (Google.next s input).1 (Google.next s input).2.1

theorem oaiCallN_of_done (s : OpenAI.StreamState) (h : s.done = true) :
    ∀ (k : Nat) (input : List OpenAI.WireLine), OpenAI.callN k s input = .complete
  | 0, input => by rw [OpenAI.callN, oaiNext_of_done s input h]
  | k + 1, input => by
      rw [OpenAI.callN, oaiNext_of_done s input h]
      exact oaiCallN_of_done s h k input

theorem anthCallN_of_done (s : Anthropic.StreamState) (h : s.done = true) :
    ∀ (k : Nat) (input : List Anthropic.WireEvent), Anthropic.callN k s input = .complete
  | 0, input => by rw [Anthropic.callN, anthNext_of_done s input h]
  | k + 1, input => by
      rw [Anthropic.callN, anthNext_of_done s input h]
      exact anthCallN_of_done s h k input

theorem googleCallN_of_done (s : Google.StreamState) (h : s.done = true) :
    ∀ (k : Nat) (input : Option (List Google.StreamChunk)), Google.callN k s input = .complete
  | 0, input => by rw [Google.callN, googleNext_of_done s input h]
  | k + 1, input => by
      rw [Google.callN, googleNext_of_done s input h]
      exact googleCallN_of_done s h k input

/-- C8: for each provider's reader, once a `Next` call returns the terminal
Done event or "stream complete" (which covers end of input), every subsequent
call returns "stream complete" — `(nil, nil)` in the source. -/
theorem c8_next_complete_after_done :
    (∀ (input : List OpenAI.WireLine) (s s' : OpenAI.StreamState)
        (input' : List OpenAI.WireLine) (r : NextRes),
        OpenAI.next s input = (s', input', r) → terminalRes r →
        ∀ k : Nat, OpenAI.callN k s' input' = .complete)
    ∧ (∀ (input : List Anthropic.WireEvent) (s s' : Anthropic.StreamState)
        (input' : List Anthropic.WireEvent) (r : NextRes),
        Anthropic.next s input = (s', input', r) → terminalRes r →
        ∀ k : Nat, Anthropic.callN k s' input' = .complete)
    ∧ (∀ (input input' : Option (List Google.StreamChunk)) (s s' : Google.StreamState)
        (r : NextRes),
        Google.next s input = (s', input', r) → terminalRes r →
        ∀ k : Nat, Google.callN k s' input' = .complete) := by
  refine ⟨?_, ?_, ?_⟩
  · intro input s s' input' r h hterm k
    exact oaiCallN_of_done s' (oaiNext_terminal_done input s s' input' r h hterm) k input'
  · intro input s s' input' r h hterm k
    exact anthCallN_of_done s' (anthNext_terminal_done input s s' input' r h hterm) k input'
  · intro input input' s s' r h hterm k
    exact googleCallN_of_done s' (googleNext_terminal_done s s' input input' r h hterm) k input'

/-- Witness for C8: after each reader's Done event on a concrete transcript,
the following two calls both answer "stream complete". -/
theorem c8_witness :
    OpenAI.callN 1
      ({ done := true, response := some (OpenAI.buildResponse {}) } : OpenAI.StreamState) []
        = .complete
    ∧ Anthropic.callN 1
        ({ done := true, response := some (Anthropic.buildResponse {}) } :
          Anthropic.StreamState) [] = .complete
    ∧ Google.callN 1
        ({ done := true, started := true, arrayStarted := true,
           response := some (Google.buildResponse {}) } :
          Google.StreamState) (some []) = .complete := by
  refine ⟨?_, ?_, ?_⟩
  · exact c8_next_complete_after_done.1 [.doneMark] {}
      { done := true, response := some (OpenAI.buildResponse {}) } []
      (.event { type := StreamEventDone }) (by decide) (Or.inr ⟨_, rfl, rfl⟩) 1
  · exact c8_next_complete_after_done.2.1 [.messageStop] {}
      { done := true, response := some (Anthropic.buildResponse {}) } []
      (.event { type := StreamEventDone }) (by decide) (Or.inr ⟨_, rfl, rfl⟩) 1
  · exact c8_next_complete_after_done.2.2 (some []) (some [])
      { started := true }
      { done := true, started := true, arrayStarted := true,
        response := some (Google.buildResponse {}) }
      (.event { type := StreamEventDone }) (by decide) (Or.inr ⟨_, rfl, rfl⟩) 1

/-! ## Batch listing URLs (openai part_004 / anthropic part_007). -/

/-- `provider.ListBatchOptions`. -/
structure ListBatchOptions where
  limit : Int := 0
  after : String := ""
  deriving DecidableEq

/-- Go `string(rune(n))`: the single character whose code point is `n`; an
invalid code point (negative, surrogate, or above U+10FFFF) yields U+FFFD. -/
def goRuneString (n : Int) : String :=
  if 0 ≤ n ∧ (n < 55296 ∨ (57343 < n ∧ n ≤ 1114111)) then String.mk [Char.ofNat n.toNat]
  else String.mk [Char.ofNat 65533]

/-- Go `strconv.Itoa`: decimal rendering of an int. -/
def strconvItoa (n : Int) : String := toString n

/-- openai `Client.ListBatches` URL assembly: note the limit is appended as
`string(rune(opts.Limit))`. -/
def OpenAI.listBatchesURL (baseURL : String) (opts : Option ListBatchOptions) : String :=
  let url := baseURL ++ "/batches"
  match opts with
  | none => url
  | some o =>
    let params := "?"
    let params := if o.limit > 0 then params ++ "limit=" ++ goRuneString o.limit else params
    let params :=
      if o.after ≠ "" then
        (if params ≠ "?" then params ++ "&" else params) ++ "after=" ++ o.after
      else params
    if params ≠ "?" then url ++ params else url

/-- anthropic `Client.ListBatches` URL assembly: the limit is appended as
`strconv.Itoa(opts.Limit)`. -/
def Anthropic.listBatchesURL (baseURL : String) (opts : Option ListBatchOptions) : String :=
  let url := baseURL ++ "/v1/messages/batches"
  match opts with
  | none => url
  | some o =>
    let params := "?"
    let params := if o.limit > 0 then params ++ "limit=" ++ strconvItoa o.limit else params
    let params :=
      if o.after ≠ "" then
        (if params ≠ "?" then params ++ "&" else params) ++ "after_id=" ++ o.after
      else params
    if params ≠ "?" then url ++ params else url

theorem goRuneString_data_len (n : Int) : (goRuneString n).data.length = 1 := by
  unfold goRuneString
  split_ifs <;> rfl

theorem strData_len_append (a b : String) :
    (a ++ b).data.length = a.data.length + b.data.length := by
  rw [strData_append, List.length_append]

theorem strNe_of_len (s t : String) (h : s.data.length ≠ t.data.length) : s ≠ t :=
  fun hc => h (congrArg (fun x => x.data.length) hc)

theorem limitParamRune_ne_q (x : Int) : ("?" ++ "limit=" ++ goRuneString x) ≠ "?" := by
  apply strNe_of_len
  rw [strData_len_append, strData_len_append, goRuneString_data_len]
  decide

theorem limitParamItoa_ne_q (x : Int) : ("?" ++ "limit=" ++ strconvItoa x) ≠ "?" := by
  apply strNe_of_len
  rw [strData_len_append, strData_len_append]
  have h7 : ("?".data.length + "limit=".data.length) = 7 := by decide
  have hq : "?".data.length = 1 := by decide
  omega

theorem afterParam_ne_q (p a b : String) (hp : 1 ≤ p.data.length) :
    (p ++ "&" ++ a ++ b) ≠ "?" := by
  apply strNe_of_len
  rw [strData_len_append, strData_len_append, strData_len_append]
  have h1 : "&".data.length = 1 := by decide
  have h2 : "?".data.length = 1 := by decide
  omega

theorem strExt (s t : String) (h : s.data = t.data) : s = t := by
  cases s; cases t; cases h; rfl

/-- C9: with Limit > 0 (and in the valid rune range), the OpenAI ListBatches
URL carries `limit=` followed by the single character whose code point is
Limit (`string(rune(Limit))`), while the Anthropic URL carries the decimal
rendering (`strconv.Itoa`). -/
theorem c9_list_batches_limit_encoding :
    ∀ (base after : String) (limit : Int), 0 < limit → limit < 55296 →
      OpenAI.listBatchesURL base (some { limit := limit, after := after }) =
        base ++ "/batches" ++ "?" ++ "limit=" ++ String.mk [Char.ofNat limit.toNat]
          ++ (if after ≠ "" then "&after=" ++ after else "")
      ∧ Anthropic.listBatchesURL base (some { limit := limit, after := after }) =
        base ++ "/v1/messages/batches" ++ "?" ++ "limit=" ++ toString limit
          ++ (if after ≠ "" then "&after_id=" ++ after else "") := by
  intro base after limit h1 h2
  have hrune : goRuneString limit = String.mk [Char.ofNat limit.toNat] := by
    rw [goRuneString, if_pos ⟨le_of_lt h1, Or.inl h2⟩]
  constructor
  · rw [OpenAI.listBatchesURL]
    simp only []
    rw [if_pos h1]
    by_cases ha : after ≠ ""
    · rw [if_pos ha, if_pos (limitParamRune_ne_q limit),
        if_pos (afterParam_ne_q _ _ _ (by
          rw [strData_len_append, strData_len_append]
          have hq : "?".data.length = 1 := by decide
          omega)),
        if_pos ha, hrune]
      apply strExt
      simp [strData_append, List.append_assoc]
    · rw [if_neg ha, if_pos (limitParamRune_ne_q limit), if_neg ha, hrune]
      apply strExt
      simp [strData_append, List.append_assoc]
  · rw [Anthropic.listBatchesURL]
    simp only []
    rw [if_pos h1]
    by_cases ha : after ≠ ""
    · rw [if_pos ha, if_pos (limitParamItoa_ne_q limit),
        if_pos (afterParam_ne_q _ _ _ (by
          rw [strData_len_append, strData_len_append]
          have hq : "?".data.length = 1 := by decide
          omega)),
        if_pos ha]
      apply strExt
      simp [strconvItoa, strData_append, List.append_assoc]
    · rw [if_neg ha, if_pos (limitParamItoa_ne_q limit), if_neg ha]
      apply strExt
      simp [strconvItoa, strData_append, List.append_assoc]

/-- Witness for C9 at limit 20, after "batch_x": the OpenAI URL embeds the
single control character U+0014, the Anthropic URL embeds "20". -/
theorem c9_witness :
    OpenAI.listBatchesURL "https://api.openai.com/v1" (some { limit := 20, after := "batch_x" }) =
      "https://api.openai.com/v1" ++ "/batches" ++ "?" ++ "limit="
        ++ String.mk [Char.ofNat 20] ++ "&after=" ++ "batch_x"
    ∧ Anthropic.listBatchesURL "https://api.anthropic.com"
        (some { limit := 20, after := "batch_x" }) =
      "https://api.anthropic.com" ++ "/v1/messages/batches" ++ "?" ++ "limit=" ++ "20"
        ++ "&after_id=" ++ "batch_x" := by
  have h := c9_list_batches_limit_encoding "https://api.openai.com/v1" "batch_x" 20
    (by decide) (by decide)
  have h2 := c9_list_batches_limit_encoding "https://api.anthropic.com" "batch_x" 20
    (by decide) (by decide)
  constructor
  · rw [h.1]
    decide
  · rw [h2.2]
    decide

end AgentRouter
